import Mathlib

/-!
# Verification of the Aztec-Connect `RollupPublisher` (falafel/src/rollup_publisher.ts)

Shallow embedding of the rollup publisher as a fueled, step-counted interpreter
over an oracle environment (`Env`) that answers every chain-client / database
call.  Each `await` point in the TypeScript source consumes one step of a
global counter; the external `interrupt()` signal is modelled by an optional
step index `interruptAt` after which the `interrupted` flag reads true (this
captures "interrupt may arrive during any await, and once set stays set").

Oracle answers are `Except Unit _` values: an `.error` answer models the
underlying promise rejecting.  Calls whose errors the source catches
(`blockchain.sendTx`, `blockchain.getTransactionReceiptSafe`) fold the error
into their retry loop; every other call propagates the exception, modelled by
the `Res.exn` outcome.  Unbounded `while` loops take a fuel argument;
exhausting fuel yields the `Res.diverge` / `none` outcome (the real loop would
still be running).

The interpreter also produces a trace of observable events: each invocation of
the private `sendTx` wrapper (with the entry index, payload and nonce), each
receipt-fetch attempt, each 60s sleep, and each `rollupDb.confirmSent` call.
-/

/-- Decoded revert error attached to a failed receipt. -/
structure RevertError where
  name : String
  params : List String
deriving DecidableEq, Repr

/-- Transaction receipt: on-chain status bit plus optional decoded revert. -/
structure Receipt where
  status : Bool
  revertError : Option RevertError
deriving DecidableEq, Repr

/-- Per-transaction status entry (`TxStatus` in the source).  Payloads
(`Buffer`) and transaction hashes are modelled as opaque naturals. -/
structure TxStatus where
  success : Bool
  txHash : Option Nat
  tx : Nat
  name : String
deriving DecidableEq, Repr

/-- One tx row of the rollup (`rollup.rollupProof.txs[i]`). -/
structure TxDao where
  offchainTxData : Nat
  signature : Option Nat
  proofData : Nat
deriving DecidableEq, Repr

/-- The rollup row handed to `publishRollup`. -/
structure RollupDao where
  id : Nat
  txs : List TxDao
deriving DecidableEq, Repr

/-- Publisher configuration (constructor arguments of `RollupPublisher`). -/
structure Config where
  maxFeePerGas : Nat
  maxPriorityFeePerGas : Nat
  gasLimit : Nat
deriving DecidableEq, Repr

/-- Observable events of a publish run. -/
inductive Event where
  /-- Invocation of the private `sendTx` wrapper for status entry `i`,
  with its payload and the nonce placed in the send options. -/
  | sendTxCall (i : Nat) (payload : Nat) (nonce : Nat)
  /-- One attempt to fetch the receipt for hash `h`
  (`blockchain.getTransactionReceiptSafe`). -/
  | getReceipt (h : Nat)
  /-- A `sleepOrInterrupted` call of `ms` milliseconds. -/
  | sleep (ms : Nat)
  /-- `rollupDb.confirmSent(rollupId, txHash)`. -/
  | confirmSent (rollupId : Nat) (txHash : Nat)
deriving DecidableEq, Repr

/-- Oracle environment: answers of the chain client and rollup database,
indexed by the global step counter where relevant, plus the step index at
which the external `interrupt()` signal lands (if ever). -/
structure Env where
  interruptAt : Option Nat
  /-- `ethereumRpc.getAccounts()`: the default signer address. -/
  accountsR : Except Unit Nat
  /-- `blockchain.getUserProofApprovalStatus` at a given step, for a proof. -/
  approvalR : Nat → Nat → Except Unit Bool
  /-- `blockchain.createRollupTxs`: `(rollupProofTx, offchainDataTxs)`. -/
  createTxsR : Except Unit (Nat × List Nat)
  /-- `rollupDb.setCallData`. -/
  setCallDataR : Except Unit Unit
  /-- `ethereumRpc.getBlockByNumber('latest').baseFeePerGas` at a step. -/
  blockBaseFeeR : Nat → Except Unit Nat
  /-- `ethereumRpc.getBalance(signer)` at a step. -/
  balanceR : Nat → Except Unit Nat
  /-- `ethereumRpc.getTransactionCount(signer)` at a step. -/
  txCountR : Nat → Except Unit Nat
  /-- `blockchain.sendTx` at a step, given the nonce in the options. -/
  sendTxR : Nat → Nat → Except Unit Nat
  /-- `blockchain.getTransactionReceiptSafe(h, 300)` at a step. -/
  receiptR : Nat → Nat → Except Unit (Option Receipt)
  /-- `rollupDb.confirmSent` at a step. -/
  confirmSentR : Nat → Except Unit Unit

/-- The `this.interrupted` flag as observed at step `st`. -/
def interrupted (env : Env) (st : Nat) : Bool :=
  match env.interruptAt with
  | none => false
  | some t => decide (t ≤ st)

/-- Outcome of a fallible fragment: normal value, propagated exception, or
out of fuel (the source loop would still be spinning). -/
inductive Res (α : Type) where
  | ok (a : α)
  | exn
  | diverge
deriving DecidableEq, Repr

/-- The private `sendTx` wrapper (source lines 186–196): retry
`blockchain.sendTx` until it succeeds, sleeping 60s after each error, exiting
with `undefined` (here `none`) once the interrupt flag is observed.
Result: `none` = out of fuel, `some h?` = the wrapper returned `h?`. -/
def sendTx (env : Env) : Nat → Nat → Nat → Option (Option Nat) × Nat × List Event
  | 0, _, st => (none, st, [])
  | fuel + 1, nonce, st =>
    if interrupted env st then (some none, st, [])
    else
      match env.sendTxR st nonce with
      | .ok h => (some (some h), st + 1, [])
      | .error _ =>
        let (r, st', tr) := sendTx env fuel nonce (st + 2)
        (r, st', Event.sleep 60000 :: tr)

/-- The private `getTransactionReceipt` wrapper (source lines 198–207):
retry `blockchain.getTransactionReceiptSafe` until it returns (a receipt or
the timeout marker `none`), sleeping 60s after each thrown error, exiting with
`undefined` (here `none`) once the interrupt flag is observed.
Result: outer `none` = out of fuel. -/
def getTransactionReceipt (env : Env) : Nat → Nat → Nat →
    Option (Option Receipt) × Nat × List Event
  | 0, _, st => (none, st, [])
  | fuel + 1, h, st =>
    if interrupted env st then (some none, st, [])
    else
      match env.receiptR st h with
      | .ok r? => (some r?, st + 1, [Event.getReceipt h])
      | .error _ =>
        let (r, st', tr) := getTransactionReceipt env fuel h (st + 2)
        (r, st', Event.getReceipt h :: Event.sleep 60000 :: tr)

/-- The gas/balance gate (source lines 29–65,
`awaitGasPriceBelowThresholdAndSufficientBalance`): each poll fetches the
latest base fee and the signer balance; if the predicted fee
`baseFee + maxPriorityFeePerGas` exceeds `maxFeePerGas`, or the balance is
below `maxFeePerGas * estimatedGas`, sleep 60s and poll again. -/
def awaitGasPriceBelowThresholdAndSufficientBalance
    (cfg : Config) (env : Env) (estimatedGas : Nat) :
    Nat → Nat → Res Unit × Nat × List Event
  | 0, st => (.diverge, st, [])
  | fuel + 1, st =>
    if interrupted env st then (.ok (), st, [])
    else
      match env.blockBaseFeeR st with
      | .error _ => (.exn, st + 1, [])
      | .ok baseFeePerGas =>
        match env.balanceR (st + 1) with
        | .error _ => (.exn, st + 2, [])
        | .ok currentBalance =>
          let estimatedFeePerGas := baseFeePerGas + cfg.maxPriorityFeePerGas
          let requiredBalance := cfg.maxFeePerGas * estimatedGas
          if cfg.maxFeePerGas < estimatedFeePerGas then
            let (r, st', tr) :=
              awaitGasPriceBelowThresholdAndSufficientBalance cfg env
                estimatedGas fuel (st + 3)
            (r, st', Event.sleep 60000 :: tr)
          else if currentBalance < requiredBalance then
            let (r, st', tr) :=
              awaitGasPriceBelowThresholdAndSufficientBalance cfg env
                estimatedGas fuel (st + 3)
            (r, st', Event.sleep 60000 :: tr)
          else (.ok (), st + 2, [])

/-- The send loop of one main-loop iteration (source lines 101–113):
walk the status list from index `i`; skip entries whose `success` flag is set
(they consume no nonce); otherwise invoke the `sendTx` wrapper with the
current nonce (then increment it) and store the returned hash (possibly
`undefined`) into the entry.  The loop head also exits once the interrupt
flag is observed.  Result `none` = wrapper ran out of fuel. -/
def sendTxs (env : Env) (fuel : Nat) :
    Nat → List TxStatus → Nat → Nat → Option Unit × List TxStatus × Nat × List Event
  | _, [], _, st => (some (), [], st, [])
  | i, ts :: rest, nonce, st =>
    if interrupted env st then (some (), ts :: rest, st, [])
    else if ts.success then
      let (r, l, st', tr) := sendTxs env fuel (i + 1) rest nonce st
      (r, ts :: l, st', tr)
    else
      match sendTx env fuel nonce st with
      | (none, st', trW) => (none, ts :: rest, st', Event.sendTxCall i ts.tx nonce :: trW)
      | (some h?, st', trW) =>
        let (r, l, st'', tr) := sendTxs env fuel (i + 1) rest (nonce + 1) st'
        (r, { ts with txHash := h? } :: l, st'',
          Event.sendTxCall i ts.tx nonce :: (trW ++ tr))

/-- Outcome of the receipt-checking loop of one main-loop iteration. -/
inductive RecOut where
  /-- Every entry confirmed: `publishRollup` returns `true`. -/
  | allOk
  /-- The receipt wrapper returned no receipt: `return false`. -/
  | noReceipt
  /-- Failed receipt with revert name `INCORRECT_STATE_HASH`: `return false`. -/
  | fatal (r : Receipt)
  /-- Non-fatal failed receipt: sleep 60s and `continue mainLoop`. -/
  | retryMain
  /-- Receipt wrapper ran out of fuel. -/
  | diverge
deriving DecidableEq, Repr

/-- The receipt loop of one main-loop iteration (source lines 121–148):
walk the status list in order; skip confirmed entries; fetch the receipt of
each remaining entry.  No receipt: abort.  Status bit set: mark confirmed and
continue.  Status bit clear: abort if the decoded revert name is
`INCORRECT_STATE_HASH`, otherwise sleep 60s and retry the main loop. -/
def checkReceipts (env : Env) (fuel : Nat) :
    List TxStatus → Nat → RecOut × List TxStatus × Nat × List Event
  | [], st => (.allOk, [], st, [])
  | ts :: rest, st =>
    if ts.success then
      let (r, l, st', tr) := checkReceipts env fuel rest st
      (r, ts :: l, st', tr)
    else
      match getTransactionReceipt env fuel (ts.txHash.getD 0) st with
      | (none, st', trW) => (.diverge, ts :: rest, st', trW)
      | (some none, st', trW) => (.noReceipt, ts :: rest, st', trW)
      | (some (some receipt), st', trW) =>
        if receipt.status then
          let (r, l, st'', tr) := checkReceipts env fuel rest st'
          (r, { ts with success := true } :: l, st'', trW ++ tr)
        else
          match receipt.revertError with
          | some e =>
            if e.name = "INCORRECT_STATE_HASH" then
              (.fatal receipt, ts :: rest, st', trW)
            else
              (.retryMain, ts :: rest, st' + 1, trW ++ [Event.sleep 60000])
          | none => (.retryMain, ts :: rest, st' + 1, trW ++ [Event.sleep 60000])

/-- The `mainLoop` of `publishRollup` (source lines 92–154): gate on
gas/balance, re-read the nonce, send all unconfirmed transactions, persist
the final hash via `confirmSent`, then check receipts; retry, abort or
succeed accordingly. -/
def mainLoop (cfg : Config) (env : Env) (rollupId estimatedGas : Nat) :
    Nat → List TxStatus → Nat → Res Bool × List TxStatus × Nat × List Event
  | 0, l, st => (.diverge, l, st, [])
  | fuel + 1, l, st =>
    if interrupted env st then (.ok false, l, st, [])
    else
      match awaitGasPriceBelowThresholdAndSufficientBalance cfg env
          estimatedGas (fuel + 1) st with
      | (.exn, st1, trG) => (.exn, l, st1, trG)
      | (.diverge, st1, trG) => (.diverge, l, st1, trG)
      | (.ok _, st1, trG) =>
        if interrupted env st1 then (.ok false, l, st1, trG)
        else
          match env.txCountR st1 with
          | .error _ => (.exn, l, st1 + 1, trG)
          | .ok nonce =>
            match sendTxs env (fuel + 1) 0 l nonce (st1 + 1) with
            | (none, l2, st2, trS) => (.diverge, l2, st2, trG ++ trS)
            | (some _, l2, st2, trS) =>
              if l2.any (fun s => s.txHash.isNone) then
                (.ok false, l2, st2, trG ++ trS)
              else
                match env.confirmSentR st2 with
                | .error _ => (.exn, l2, st2 + 1, trG ++ trS)
                | .ok _ =>
                  let lastHash := ((l2.getLast?).bind (fun s => s.txHash)).getD 0
                  let tr3 := trG ++ trS ++ [Event.confirmSent rollupId lastHash]
                  match checkReceipts env (fuel + 1) l2 (st2 + 1) with
                  | (.allOk, l3, st3, trR) => (.ok true, l3, st3, tr3 ++ trR)
                  | (.noReceipt, l3, st3, trR) => (.ok false, l3, st3, tr3 ++ trR)
                  | (.fatal _, l3, st3, trR) => (.ok false, l3, st3, tr3 ++ trR)
                  | (.diverge, l3, st3, trR) => (.diverge, l3, st3, tr3 ++ trR)
                  | (.retryMain, l3, st3, trR) =>
                    let (res, l4, st4, trM) := mainLoop cfg env rollupId
                      estimatedGas fuel l3 st3
                    (res, l4, st4, tr3 ++ trR ++ trM)

/-- The signature-collection loop of `createTxData` (source lines 175–182):
for each tx carrying a signature, query the on-chain approval status; push
the signature only when not already approved. -/
def collectSignatures (env : Env) :
    List TxDao → Nat → Res (List Nat) × Nat
  | [], st => (.ok [], st)
  | tx :: rest, st =>
    match env.approvalR st tx.proofData with
    | .error _ => (.exn, st + 1)
    | .ok approved =>
      match collectSignatures env rest (st + 1) with
      | (.ok sigs, st') =>
        (.ok (if approved then sigs else tx.signature.getD 0 :: sigs), st')
      | (r, st') => (r, st')

/-- `createTxData` (source lines 170–184): collect signatures of unapproved
join-split txs, then ask the chain client to build the rollup-proof tx and
the broadcast-data txs. -/
def createTxData (env : Env) (rollup : RollupDao) (st : Nat) :
    Res (Nat × List Nat) × Nat :=
  let jsTxs := rollup.txs.filter (fun tx => tx.signature.isSome)
  match collectSignatures env jsTxs st with
  | (.ok _, st') =>
    match env.createTxsR with
    | .error _ => (.exn, st' + 1)
    | .ok txs => (.ok txs, st' + 1)
  | (.exn, st') => (.exn, st')
  | (.diverge, st') => (.diverge, st')

/-- The initial status list of `publishRollup` (source lines 82–89):
one entry per broadcast-data payload, in order, then the rollup-proof entry
last. -/
def txStatusesInit (offchainDataTxs : List Nat) (rollupProofTx : Nat) :
    List TxStatus :=
  (offchainDataTxs.enum.map fun p =>
    { success := false, txHash := none, tx := p.2,
      name := "broadcast data " ++ Nat.repr (p.1 + 1) ++ "/" ++
        Nat.repr offchainDataTxs.length }) ++
  [{ success := false, txHash := none, tx := rollupProofTx,
     name := "rollup proof" }]

/-- `publishRollup` (source lines 67–157): build the tx data, persist the
call data, construct the status list, read the signer, then run the main
retry loop.  Returns the outcome together with the final status list, the
final step counter and the event trace. -/
def publishRollup (cfg : Config) (env : Env) (fuel : Nat) (rollup : RollupDao)
    (estimatedGas st0 : Nat) : Res Bool × List TxStatus × Nat × List Event :=
  match createTxData env rollup st0 with
  | (.exn, st) => (.exn, [], st, [])
  | (.diverge, st) => (.diverge, [], st, [])
  | (.ok (rollupProofTx, offchainDataTxs), st) =>
    match env.setCallDataR with
    | .error _ => (.exn, [], st + 1, [])
    | .ok _ =>
      let statuses := txStatusesInit offchainDataTxs rollupProofTx
      match env.accountsR with
      | .error _ => (.exn, statuses, st + 2, [])
      | .ok _ =>
        mainLoop cfg env rollup.id estimatedGas fuel statuses (st + 2)

/-- The `(index, nonce)` pairs of the `sendTx`-wrapper invocations in a
trace, in trace order. -/
def sentPairs (tr : List Event) : List (Nat × Nat) :=
  tr.filterMap fun e =>
    match e with
    | .sendTxCall i _ n => some (i, n)
    | _ => none

/-- The nonces of the `sendTx`-wrapper invocations in a trace, in order. -/
def sentNonces (tr : List Event) : List Nat :=
  (sentPairs tr).map Prod.snd

/-- All oracle calls whose errors the source does NOT catch answer normally.
(`blockchain.sendTx` and `getTransactionReceiptSafe` — the two calls the
source wraps in `try/catch` — are deliberately unconstrained.) -/
def UncaughtTotal (env : Env) : Prop :=
  (∃ v, env.accountsR = .ok v) ∧
  (∀ s p, ∃ v, env.approvalR s p = .ok v) ∧
  (∃ v, env.createTxsR = .ok v) ∧
  env.setCallDataR = .ok () ∧
  (∀ s, ∃ v, env.blockBaseFeeR s = .ok v) ∧
  (∀ s, ∃ v, env.balanceR s = .ok v) ∧
  (∀ s, ∃ v, env.txCountR s = .ok v) ∧
  (∀ s, env.confirmSentR s = .ok ())

/-- Concrete configuration used by the evaluation witnesses below. -/
def cfgW : Config := { maxFeePerGas := 100, maxPriorityFeePerGas := 2, gasLimit := 5 }

/-- Concrete rollup used by the evaluation witnesses below. -/
def rollupW : RollupDao := { id := 3, txs := [] }

/-- A benign environment: never interrupted, every call answers normally,
every receipt reports on-chain success.  Hashes are `100 + step`. -/
def envW : Env := {
  interruptAt := none
  accountsR := .ok 1
  approvalR := fun _ _ => .ok true
  createTxsR := .ok (10, [20, 21])
  setCallDataR := .ok ()
  blockBaseFeeR := fun _ => .ok 5
  balanceR := fun _ => .ok 1000000
  txCountR := fun _ => .ok 7
  sendTxR := fun s _ => .ok (100 + s)
  receiptR := fun _ _ => .ok (some { status := true, revertError := none })
  confirmSentR := fun _ => .ok ()
}

/-- The initial status list for `envW`: two broadcast payloads then the
rollup proof. -/
def lW : List TxStatus := txStatusesInit [20, 21] 10

/-- Like `envW`, but the first rollup-proof transaction (hash 108) fails
with a non-fatal revert, forcing one outer retry. -/
def envRetryW : Env := { envW with
  receiptR := fun _ h =>
    if h = 108 then
      .ok (some { status := false
                  revertError := some { name := "OTHER_ERROR", params := [] } })
    else .ok (some { status := true, revertError := none }) }

/-- The status list at the start of the retry iteration of `envRetryW`:
broadcasts confirmed, rollup proof unconfirmed with its stale hash. -/
def l3W : List TxStatus := [
  { success := true, txHash := some 106, tx := 20, name := "broadcast data 1/2" },
  { success := true, txHash := some 107, tx := 21, name := "broadcast data 2/2" },
  { success := false, txHash := some 108, tx := 10, name := "rollup proof" }]

/-- Like `envW`, but the rollup-proof receipt reports the fatal
`INCORRECT_STATE_HASH` revert. -/
def envFatalW : Env := { envW with
  receiptR := fun _ h =>
    if h = 108 then
      .ok (some { status := false
                  revertError := some { name := "INCORRECT_STATE_HASH", params := [] } })
    else .ok (some { status := true, revertError := none }) }

/-- Like `envW`, but the rollup-proof receipt poll times out (no receipt
within the per-transaction budget). -/
def envTimeoutW : Env := { envW with
  receiptR := fun _ h =>
    if h = 108 then .ok none
    else .ok (some { status := true, revertError := none }) }

/-- Like `envW`, but `getBlockByNumber` rejects: its error is not caught by
the publisher. -/
def envExnW : Env := { envW with blockBaseFeeR := fun _ => .error () }

/-- Like `envW`, but `interrupt()` was called before the publish started. -/
def envIntW : Env := { envW with interruptAt := some 0 }

/-- An environment whose uncaught oracles all answer normally while the two
caught calls (`blockchain.sendTx`, the receipt fetch) always throw. -/
def envTotW : Env := { envW with
  sendTxR := fun _ _ => .error ()
  receiptR := fun _ _ => .error () }

/-- Gate boundary environment: base fee exactly `maxFeePerGas −
maxPriorityFeePerGas` (98 = 100 − 2) and balance exactly
`maxFeePerGas × estimatedGas` (1000 = 100 × 10). -/
def envBoundW : Env := { envW with
  blockBaseFeeR := fun _ => .ok 98
  balanceR := fun _ => .ok 1000 }


/-! ## Lemmas about the `sendTx` wrapper -/

/-- The `sendTx` wrapper itself emits only sleep events. -/
theorem sendTx_trace_sleeps (env : Env) :
    ∀ fuel nonce st, ∀ e ∈ (sendTx env fuel nonce st).2.2, e = Event.sleep 60000 := by
  intro fuel
  induction fuel with
  | zero => intro nonce st e he; simp [sendTx] at he
  | succ f ih =>
    intro nonce st e he
    rcases hX : sendTx env f nonce (st + 2) with ⟨r, st', tr⟩
    by_cases hI : interrupted env st
    · simp [sendTx, hI] at he
    · cases hR : env.sendTxR st nonce with
      | ok h => simp [sendTx, hI, hR] at he
      | error u =>
        simp [sendTx, hI, hR, hX] at he
        rcases he with he | he
        · exact he
        · have := ih nonce (st + 2) e
          rw [hX] at this
          exact this he

/-- The `sendTx` wrapper contributes no `sendTxCall` events. -/
theorem sendTx_sentPairs (env : Env) (fuel nonce st : Nat) :
    sentPairs (sendTx env fuel nonce st).2.2 = [] := by
  rw [sentPairs, List.filterMap_eq_nil_iff]
  intro e he
  rw [sendTx_trace_sleeps env fuel nonce st e he]

/-! ## Lemmas about the send loop `sendTxs` -/

/-- The `(index, nonce)` pairs recorded by the send loop: membership
characterisation.  Every recorded send targets a not-yet-confirmed entry of
the remaining list (so confirmed entries are skipped), carries that entry's
payload, and its index and nonce are at least the starting ones. -/
theorem sendTxs_pairs_mem (env : Env) (fuel : Nat) :
    ∀ rem i0 n0 st i p n,
      Event.sendTxCall i p n ∈ (sendTxs env fuel i0 rem n0 st).2.2.2 →
      i0 ≤ i ∧ n0 ≤ n ∧ ∃ ts, rem.get? (i - i0) = some ts ∧
        ts.success = false ∧ ts.tx = p := by
  intro rem
  induction rem with
  | nil => intro i0 n0 st i p n hmem; simp [sendTxs] at hmem
  | cons ts rest ih =>
    intro i0 n0 st i p n hmem
    by_cases hI : interrupted env st
    · simp [sendTxs, hI] at hmem
    · by_cases hS : ts.success
      · rcases hX : sendTxs env fuel (i0 + 1) rest n0 st with ⟨r, l, st', tr⟩
        simp only [sendTxs, hI, hS, hX] at hmem
        simp at hmem
        have := ih (i0 + 1) n0 st i p n
        rw [hX] at this
        obtain ⟨h1, h2, ts', hget, hsucc, htx⟩ := this hmem
        refine ⟨by omega, h2, ts', ?_, hsucc, htx⟩
        have : i - i0 = (i - (i0 + 1)) + 1 := by omega
        rw [this]
        simpa using hget
      · rcases hW : sendTx env fuel n0 st with ⟨h?, stW, trW⟩
        cases h? with
        | none =>
          simp only [sendTxs, hI, hS, hW] at hmem
          simp at hmem
          rcases hmem with ⟨hi, hp, hn⟩ | hmem
          · subst hi; subst hp; subst hn
            exact ⟨le_refl _, le_refl _, ts, by simp, by simpa using hS, rfl⟩
          · have := sendTx_trace_sleeps env fuel n0 st (Event.sendTxCall i p n)
            rw [hW] at this
            exact absurd (this hmem) (by simp)
        | some hh =>
          rcases hX : sendTxs env fuel (i0 + 1) rest (n0 + 1) stW with ⟨r, l, st', tr⟩
          simp only [sendTxs, hI, hS, hW, hX] at hmem
          simp at hmem
          rcases hmem with ⟨hi, hp, hn⟩ | hmem | hmem
          · subst hi; subst hp; subst hn
            exact ⟨le_refl _, le_refl _, ts, by simp, by simpa using hS, rfl⟩
          · have := sendTx_trace_sleeps env fuel n0 st (Event.sendTxCall i p n)
            rw [hW] at this
            exact absurd (this hmem) (by simp)
          · have := ih (i0 + 1) (n0 + 1) stW i p n
            rw [hX] at this
            obtain ⟨h1, h2, ts', hget, hsucc, htx⟩ := this hmem
            refine ⟨by omega, by omega, ts', ?_, hsucc, htx⟩
            have : i - i0 = (i - (i0 + 1)) + 1 := by omega
            rw [this]
            simpa using hget

/-- `sentPairs` rewrite: a wrapper-invocation event contributes its pair. -/
theorem sentPairs_cons_send (i p n : Nat) (tr : List Event) :
    sentPairs (Event.sendTxCall i p n :: tr) = (i, n) :: sentPairs tr := by
  simp [sentPairs, List.filterMap_cons]

/-- `sentPairs` rewrite: a sleep event contributes nothing. -/
theorem sentPairs_cons_sleep (ms : Nat) (tr : List Event) :
    sentPairs (Event.sleep ms :: tr) = sentPairs tr := by
  simp [sentPairs, List.filterMap_cons]

/-- `sentPairs` rewrite: a receipt-fetch event contributes nothing. -/
theorem sentPairs_cons_getReceipt (h : Nat) (tr : List Event) :
    sentPairs (Event.getReceipt h :: tr) = sentPairs tr := by
  simp [sentPairs, List.filterMap_cons]

/-- `sentPairs` rewrite: a `confirmSent` event contributes nothing. -/
theorem sentPairs_cons_confirmSent (rid h : Nat) (tr : List Event) :
    sentPairs (Event.confirmSent rid h :: tr) = sentPairs tr := by
  simp [sentPairs, List.filterMap_cons]

/-- `sentPairs` distributes over trace concatenation. -/
theorem sentPairs_append (a b : List Event) :
    sentPairs (a ++ b) = sentPairs a ++ sentPairs b := by
  simp [sentPairs, List.filterMap_append]

/-- Contiguity: the nonces recorded by the send loop form the contiguous
run `startNonce, startNonce+1, …` — confirmed entries consume no nonce. -/
theorem sendTxs_nonces (env : Env) (fuel : Nat) :
    ∀ rem i0 n0 st,
      sentNonces (sendTxs env fuel i0 rem n0 st).2.2.2 =
        List.range' n0 (sentNonces (sendTxs env fuel i0 rem n0 st).2.2.2).length := by
  intro rem
  induction rem with
  | nil => intro i0 n0 st; simp [sendTxs, sentNonces, sentPairs]
  | cons ts rest ih =>
    intro i0 n0 st
    by_cases hI : interrupted env st
    · simp [sendTxs, hI, sentNonces, sentPairs]
    · by_cases hS : ts.success
      · rcases hX : sendTxs env fuel (i0 + 1) rest n0 st with ⟨r, l, st', tr⟩
        simp only [sendTxs, hI, hS, if_false, if_true, Bool.false_eq_true, hX]
        have := ih (i0 + 1) n0 st
        rw [hX] at this
        simpa using this
      · rcases hW : sendTx env fuel n0 st with ⟨h?, stW, trW⟩
        have hWp : sentPairs trW = [] := by
          have := sendTx_sentPairs env fuel n0 st
          rw [hW] at this; exact this
        cases h? with
        | none =>
          simp only [sendTxs, hI, hS, hW]
          simp only [Bool.false_eq_true, if_false, sentNonces,
            sentPairs_cons_send, hWp, List.map_cons, List.map_nil,
            List.length_cons, List.length_nil]
          simp [List.range'_one]
        | some hh =>
          rcases hX : sendTxs env fuel (i0 + 1) rest (n0 + 1) stW with ⟨r, l, st', tr⟩
          simp only [sendTxs, hI, hS, hW, hX]
          have hrec := ih (i0 + 1) (n0 + 1) stW
          rw [hX] at hrec
          simp only [sentNonces] at hrec ⊢
          simp only [Bool.false_eq_true, if_false, sentPairs_cons_send,
            sentPairs_append, hWp, List.nil_append, List.map_cons,
            List.length_cons]
          rw [List.range'_succ]
          exact congrArg (List.cons n0) hrec

/-- Membership in `sentPairs`: exactly the wrapper-invocation events. -/
theorem sentPairs_mem (tr : List Event) (i n : Nat) :
    (i, n) ∈ sentPairs tr ↔ ∃ p, Event.sendTxCall i p n ∈ tr := by
  constructor
  · intro h
    rw [sentPairs, List.mem_filterMap] at h
    obtain ⟨e, he, hmap⟩ := h
    cases e with
    | sendTxCall i' p' n' =>
      simp at hmap
      exact ⟨p', by rw [← hmap.1, ← hmap.2]; exact he⟩
    | getReceipt _ => simp at hmap
    | sleep _ => simp at hmap
    | confirmSent _ _ => simp at hmap
  · intro ⟨p, hp⟩
    rw [sentPairs, List.mem_filterMap]
    exact ⟨Event.sendTxCall i p n, hp, rfl⟩

/-- Lower bounds on every recorded send: index and nonce are at least the
starting ones. -/
theorem sendTxs_pairs_lb (env : Env) (fuel : Nat) (rem : List TxStatus)
    (i0 n0 st i n : Nat)
    (h : (i, n) ∈ sentPairs (sendTxs env fuel i0 rem n0 st).2.2.2) :
    i0 ≤ i ∧ n0 ≤ n := by
  rw [sentPairs_mem] at h
  obtain ⟨p, hp⟩ := h
  obtain ⟨h1, h2, _⟩ := sendTxs_pairs_mem env fuel rem i0 n0 st i p n hp
  exact ⟨h1, h2⟩

/-- Strict ordering: along the trace of one send loop, both the entry
indices and the nonces of successive wrapper invocations strictly
increase. -/
theorem sendTxs_pairs_pairwise (env : Env) (fuel : Nat) :
    ∀ rem i0 n0 st,
      List.Pairwise (fun a b => a.1 < b.1 ∧ a.2 < b.2)
        (sentPairs (sendTxs env fuel i0 rem n0 st).2.2.2) := by
  intro rem
  induction rem with
  | nil => intro i0 n0 st; simp [sendTxs, sentPairs]
  | cons ts rest ih =>
    intro i0 n0 st
    by_cases hI : interrupted env st
    · simp [sendTxs, hI, sentPairs]
    · by_cases hS : ts.success
      · rcases hX : sendTxs env fuel (i0 + 1) rest n0 st with ⟨r, l, st', tr⟩
        simp only [sendTxs, hI, hS, if_false, Bool.false_eq_true, hX]
        have := ih (i0 + 1) n0 st
        rw [hX] at this
        simpa using this
      · rcases hW : sendTx env fuel n0 st with ⟨h?, stW, trW⟩
        have hWp : sentPairs trW = [] := by
          have := sendTx_sentPairs env fuel n0 st
          rw [hW] at this; exact this
        cases h? with
        | none =>
          simp only [sendTxs, hI, hS, hW, Bool.false_eq_true, if_false,
            sentPairs_cons_send, hWp]
          simp
        | some hh =>
          rcases hX : sendTxs env fuel (i0 + 1) rest (n0 + 1) stW with ⟨r, l, st', tr⟩
          simp only [sendTxs, hI, hS, hW, hX, Bool.false_eq_true, if_false,
            sentPairs_cons_send, sentPairs_append, hWp, List.nil_append]
          have hrec := ih (i0 + 1) (n0 + 1) stW
          rw [hX] at hrec
          refine List.Pairwise.cons ?_ hrec
          intro b hb
          have := sendTxs_pairs_lb env fuel rest (i0 + 1) (n0 + 1) stW b.1 b.2
          rw [hX] at this
          have hB := this (by simpa using hb)
          exact ⟨by omega, by omega⟩

/-- The send loop only rewrites the `txHash` field: every entry of the
output list is its input entry with a possibly different hash (so `success`,
payload and name are preserved). -/
theorem sendTxs_entries (env : Env) (fuel : Nat) :
    ∀ rem i0 n0 st (j : Nat) (ts : TxStatus), rem[j]? = some ts →
      ∃ h?, (sendTxs env fuel i0 rem n0 st).2.1[j]? =
        some { ts with txHash := h? } := by
  intro rem
  induction rem with
  | nil => intro i0 n0 st j ts h; simp at h
  | cons t rest ih =>
    intro i0 n0 st j ts h
    by_cases hI : interrupted env st
    · refine ⟨ts.txHash, ?_⟩
      simp [sendTxs, hI, h]
    · by_cases hS : t.success
      · rcases hX : sendTxs env fuel (i0 + 1) rest n0 st with ⟨r, l, st', tr⟩
        simp only [sendTxs, hI, hS, if_false, Bool.false_eq_true, hX]
        cases j with
        | zero =>
          simp at h
          exact ⟨ts.txHash, by simp [← h]⟩
        | succ j' =>
          simp at h
          have := ih (i0 + 1) n0 st j' ts h
          rw [hX] at this
          simpa using this
      · rcases hW : sendTx env fuel n0 st with ⟨h?, stW, trW⟩
        cases h? with
        | none =>
          refine ⟨ts.txHash, ?_⟩
          simp [sendTxs, hI, hS, hW, h]
        | some hh =>
          rcases hX : sendTxs env fuel (i0 + 1) rest (n0 + 1) stW with ⟨r, l, st', tr⟩
          simp only [sendTxs, hI, hS, hW, hX, Bool.false_eq_true, if_false]
          cases j with
          | zero =>
            simp at h
            subst h
            refine ⟨hh, ?_⟩
            have hS' : t.success = false := by simpa using hS
            simp [hS']
          | succ j' =>
            simp at h
            have := ih (i0 + 1) (n0 + 1) stW j' ts h
            rw [hX] at this
            simpa using this

/-! ## Lemmas about the `getTransactionReceipt` wrapper -/

/-- The receipt wrapper emits only receipt-fetch attempts and sleeps. -/
theorem getTransactionReceipt_trace (env : Env) :
    ∀ fuel h st, ∀ e ∈ (getTransactionReceipt env fuel h st).2.2,
      e = Event.getReceipt h ∨ e = Event.sleep 60000 := by
  intro fuel
  induction fuel with
  | zero => intro h st e he; simp [getTransactionReceipt] at he
  | succ f ih =>
    intro h st e he
    rcases hX : getTransactionReceipt env f h (st + 2) with ⟨r, st', tr⟩
    by_cases hI : interrupted env st
    · simp [getTransactionReceipt, hI] at he
    · cases hR : env.receiptR st h with
      | ok r? =>
        simp [getTransactionReceipt, hI, hR] at he
        exact Or.inl he
      | error u =>
        simp [getTransactionReceipt, hI, hR, hX] at he
        rcases he with he | he | he
        · exact Or.inl he
        · exact Or.inr he
        · have := ih h (st + 2) e
          rw [hX] at this
          exact this he

/-- The receipt wrapper contributes no `sendTxCall` events. -/
theorem getTransactionReceipt_sentPairs (env : Env) (fuel h st : Nat) :
    sentPairs (getTransactionReceipt env fuel h st).2.2 = [] := by
  rw [sentPairs, List.filterMap_eq_nil_iff]
  intro e he
  rcases getTransactionReceipt_trace env fuel h st e he with h1 | h1 <;>
    rw [h1]

/-- When the receipt wrapper actually returns a receipt, the last event of
its trace is the successful fetch attempt. -/
theorem getTransactionReceipt_some_last (env : Env) :
    ∀ fuel h st r, (getTransactionReceipt env fuel h st).1 = some (some r) →
      (getTransactionReceipt env fuel h st).2.2.getLast? =
        some (Event.getReceipt h) := by
  intro fuel
  induction fuel with
  | zero => intro h st r hres; simp [getTransactionReceipt] at hres
  | succ f ih =>
    intro h st r hres
    rcases hX : getTransactionReceipt env f h (st + 2) with ⟨r', st', tr⟩
    by_cases hI : interrupted env st
    · simp [getTransactionReceipt, hI] at hres
    · cases hR : env.receiptR st h with
      | ok r? =>
        simp [getTransactionReceipt, hI, hR] at hres ⊢
      | error u =>
        simp only [getTransactionReceipt, hI, hR, hX, Bool.false_eq_true,
          if_false] at hres ⊢
        have := ih h (st + 2) r
        rw [hX] at this
        have hlast := this hres
        have hne : tr ≠ [] := by
          intro hnil; rw [hnil] at hlast; simp at hlast
        rcases List.exists_cons_of_ne_nil hne with ⟨a, tr', ha⟩
        subst ha
        rw [List.getLast?_cons_cons, List.getLast?_cons_cons]
        exact hlast

/-- Once the interrupt flag is observed, the receipt wrapper returns no
receipt, immediately and without further chain-client calls. -/
theorem getTransactionReceipt_interrupted (env : Env) (fuel h st : Nat)
    (hI : interrupted env st = true) :
    getTransactionReceipt env (fuel + 1) h st = (some none, st, []) := by
  simp [getTransactionReceipt, hI]

/-! ## Lemmas about the receipt loop `checkReceipts` -/

/-- The receipt loop contributes no `sendTxCall` events. -/
theorem checkReceipts_sentPairs (env : Env) (fuel : Nat) :
    ∀ rem st, sentPairs (checkReceipts env fuel rem st).2.2.2 = [] := by
  intro rem
  induction rem with
  | nil => intro st; simp [checkReceipts, sentPairs]
  | cons ts rest ih =>
    intro st
    by_cases hS : ts.success
    · rcases hX : checkReceipts env fuel rest st with ⟨r, l, st', tr⟩
      simp only [checkReceipts, hS, if_true, hX]
      have := ih st
      rw [hX] at this
      simpa using this
    · rcases hW : getTransactionReceipt env fuel (ts.txHash.getD 0) st
        with ⟨r?, stW, trW⟩
      have hWp : sentPairs trW = [] := by
        have := getTransactionReceipt_sentPairs env fuel (ts.txHash.getD 0) st
        rw [hW] at this; exact this
      have hsleep : sentPairs (trW ++ [Event.sleep 60000]) = [] := by
        rw [sentPairs_append, hWp]
        rfl
      cases r? with
      | none =>
        simp only [checkReceipts, hS, Bool.false_eq_true, if_false, hW]
        exact hWp
      | some rec? =>
        cases rec? with
        | none =>
          simp only [checkReceipts, hS, Bool.false_eq_true, if_false, hW]
          exact hWp
        | some receipt =>
          by_cases hst : receipt.status
          · rcases hX : checkReceipts env fuel rest stW with ⟨r, l, st', tr⟩
            simp only [checkReceipts, hS, Bool.false_eq_true, if_false, hW,
              hst, if_true, hX]
            have := ih stW
            rw [hX] at this
            rw [sentPairs_append, hWp]
            simpa using this
          · cases hre : receipt.revertError with
            | some e =>
              by_cases hname : e.name = "INCORRECT_STATE_HASH"
              · simp only [checkReceipts, hS, Bool.false_eq_true, if_false,
                  hW, hst, hre, hname, if_true]
                exact hWp
              · simp only [checkReceipts, hS, Bool.false_eq_true, if_false,
                  hW, hst, hre, hname, if_false]
                exact hsleep
            | none =>
              simp only [checkReceipts, hS, Bool.false_eq_true, if_false,
                hW, hst, hre]
              exact hsleep

/-- When the receipt loop reports `allOk`, every entry of its output list
has the confirmed flag set. -/
theorem checkReceipts_allOk (env : Env) (fuel : Nat) :
    ∀ rem st l st' tr, checkReceipts env fuel rem st = (.allOk, l, st', tr) →
      ∀ ts ∈ l, ts.success = true := by
  intro rem
  induction rem with
  | nil =>
    intro st l st' tr h
    simp only [checkReceipts, Prod.mk.injEq] at h
    obtain ⟨-, hl, -, -⟩ := h
    subst hl
    intro t ht
    simp at ht
  | cons ts rest ih =>
    intro st l st' tr h
    by_cases hS : ts.success
    · rcases hX : checkReceipts env fuel rest st with ⟨r, l1, st1, tr1⟩
      simp only [checkReceipts, hS, if_true, hX, Prod.mk.injEq] at h
      obtain ⟨hr, hl, -, -⟩ := h
      subst hl
      intro t ht
      rcases List.mem_cons.mp ht with h0 | h0
      · subst h0; exact hS
      · exact ih st l1 st1 tr1 (by rw [hX, hr]) t h0
    · rcases hW : getTransactionReceipt env fuel (ts.txHash.getD 0) st
        with ⟨r?, stW, trW⟩
      cases r? with
      | none =>
        simp only [checkReceipts, hS, Bool.false_eq_true, if_false, hW,
          Prod.mk.injEq] at h
        exact absurd h.1 (by simp)
      | some rec? =>
        cases rec? with
        | none =>
          simp only [checkReceipts, hS, Bool.false_eq_true, if_false, hW,
            Prod.mk.injEq] at h
          exact absurd h.1 (by simp)
        | some receipt =>
          by_cases hst : receipt.status
          · rcases hX : checkReceipts env fuel rest stW with ⟨r, l1, st1, tr1⟩
            simp only [checkReceipts, hS, Bool.false_eq_true, if_false, hW,
              hst, if_true, hX, Prod.mk.injEq] at h
            obtain ⟨hr, hl, -, -⟩ := h
            subst hl
            intro t ht
            rcases List.mem_cons.mp ht with h0 | h0
            · subst h0; rfl
            · exact ih stW l1 st1 tr1 (by rw [hX, hr]) t h0
          · cases hre : receipt.revertError with
            | some e =>
              by_cases hname : e.name = "INCORRECT_STATE_HASH"
              · simp only [checkReceipts, hS, Bool.false_eq_true, if_false,
                  hW, hst, hre, hname, if_true, Prod.mk.injEq] at h
                exact absurd h.1 (by simp)
              · simp only [checkReceipts, hS, Bool.false_eq_true, if_false,
                  hW, hst, hre, hname, if_false, Prod.mk.injEq] at h
                exact absurd h.1 (by simp)
            | none =>
              simp only [checkReceipts, hS, Bool.false_eq_true, if_false,
                hW, hst, hre, Prod.mk.injEq] at h
              exact absurd h.1 (by simp)

/-- The receipt loop only ever sets the confirmed flag: every output entry
is the corresponding input entry, possibly with `success` turned on. -/
theorem checkReceipts_entries (env : Env) (fuel : Nat) :
    ∀ rem st (j : Nat) (ts : TxStatus), rem[j]? = some ts →
      (checkReceipts env fuel rem st).2.1[j]? = some ts ∨
      (checkReceipts env fuel rem st).2.1[j]? =
        some { ts with success := true } := by
  intro rem
  induction rem with
  | nil => intro st j ts h; simp at h
  | cons t rest ih =>
    intro st j ts h
    by_cases hS : t.success
    · rcases hX : checkReceipts env fuel rest st with ⟨r, l1, st1, tr1⟩
      simp only [checkReceipts, hS, if_true, hX]
      cases j with
      | zero =>
        simp at h
        subst h
        left; simp
      | succ j' =>
        simp at h
        have := ih st j' ts h
        rw [hX] at this
        simpa using this
    · rcases hW : getTransactionReceipt env fuel (t.txHash.getD 0) st
        with ⟨r?, stW, trW⟩
      cases r? with
      | none =>
        simp only [checkReceipts, hS, Bool.false_eq_true, if_false, hW]
        left; simpa using h
      | some rec? =>
        cases rec? with
        | none =>
          simp only [checkReceipts, hS, Bool.false_eq_true, if_false, hW]
          left; simpa using h
        | some receipt =>
          by_cases hst : receipt.status
          · rcases hX : checkReceipts env fuel rest stW with ⟨r, l1, st1, tr1⟩
            simp only [checkReceipts, hS, Bool.false_eq_true, if_false, hW,
              hst, if_true, hX]
            cases j with
            | zero =>
              simp at h
              subst h
              right; simp
            | succ j' =>
              simp at h
              have := ih stW j' ts h
              rw [hX] at this
              simpa using this
          · cases hre : receipt.revertError with
            | some e =>
              by_cases hname : e.name = "INCORRECT_STATE_HASH"
              · simp only [checkReceipts, hS, Bool.false_eq_true, if_false,
                  hW, hst, hre, hname, if_true]
                left; simpa using h
              · simp only [checkReceipts, hS, Bool.false_eq_true, if_false,
                  hW, hst, hre, hname, if_false]
                left; simpa using h
            | none =>
              simp only [checkReceipts, hS, Bool.false_eq_true, if_false,
                hW, hst, hre]
              left; simpa using h

/-- A `fatal` outcome of the receipt loop really carries a failed receipt
whose decoded revert name is `INCORRECT_STATE_HASH`. -/
theorem checkReceipts_fatal_shape (env : Env) (fuel : Nat) :
    ∀ rem st r l st' tr,
      checkReceipts env fuel rem st = (.fatal r, l, st', tr) →
      r.status = false ∧ ∃ e, r.revertError = some e ∧
        e.name = "INCORRECT_STATE_HASH" := by
  intro rem
  induction rem with
  | nil =>
    intro st r l st' tr h
    simp only [checkReceipts, Prod.mk.injEq] at h
    exact absurd h.1 (by simp)
  | cons t rest ih =>
    intro st r l st' tr h
    by_cases hS : t.success
    · rcases hX : checkReceipts env fuel rest st with ⟨r1, l1, st1, tr1⟩
      simp only [checkReceipts, hS, if_true, hX, Prod.mk.injEq] at h
      exact ih st r l1 st1 tr1 (by rw [hX, h.1])
    · rcases hW : getTransactionReceipt env fuel (t.txHash.getD 0) st
        with ⟨r?, stW, trW⟩
      cases r? with
      | none =>
        simp only [checkReceipts, hS, Bool.false_eq_true, if_false, hW,
          Prod.mk.injEq] at h
        exact absurd h.1 (by simp)
      | some rec? =>
        cases rec? with
        | none =>
          simp only [checkReceipts, hS, Bool.false_eq_true, if_false, hW,
            Prod.mk.injEq] at h
          exact absurd h.1 (by simp)
        | some receipt =>
          by_cases hst : receipt.status
          · rcases hX : checkReceipts env fuel rest stW with ⟨r1, l1, st1, tr1⟩
            simp only [checkReceipts, hS, Bool.false_eq_true, if_false, hW,
              hst, if_true, hX, Prod.mk.injEq] at h
            exact ih stW r l1 st1 tr1 (by rw [hX, h.1])
          · cases hre : receipt.revertError with
            | some e =>
              by_cases hname : e.name = "INCORRECT_STATE_HASH"
              · simp only [checkReceipts, hS, Bool.false_eq_true, if_false,
                  hW, hst, hre, hname, if_true, Prod.mk.injEq] at h
                obtain ⟨hr, -, -, -⟩ := h
                cases hr
                exact ⟨by simpa using hst, e, hre, hname⟩
              · simp only [checkReceipts, hS, Bool.false_eq_true, if_false,
                  hW, hst, hre, hname, if_false, Prod.mk.injEq] at h
                exact absurd h.1 (by simp)
            | none =>
              simp only [checkReceipts, hS, Bool.false_eq_true, if_false,
                hW, hst, hre, Prod.mk.injEq] at h
              exact absurd h.1 (by simp)

/-- A `fatal` outcome ends the receipt loop trace at the offending fetch:
the final event of the trace is a receipt-fetch attempt, with nothing — no
send, no sleep — after it. -/
theorem checkReceipts_fatal_last (env : Env) (fuel : Nat) :
    ∀ rem st r l st' tr,
      checkReceipts env fuel rem st = (.fatal r, l, st', tr) →
      ∃ h, tr.getLast? = some (Event.getReceipt h) := by
  intro rem
  induction rem with
  | nil =>
    intro st r l st' tr h
    simp only [checkReceipts, Prod.mk.injEq] at h
    exact absurd h.1 (by simp)
  | cons t rest ih =>
    intro st r l st' tr h
    by_cases hS : t.success
    · rcases hX : checkReceipts env fuel rest st with ⟨r1, l1, st1, tr1⟩
      simp only [checkReceipts, hS, if_true, hX, Prod.mk.injEq] at h
      obtain ⟨hr, -, -, htr⟩ := h
      subst htr
      exact ih st r l1 st1 tr1 (by rw [hX, hr])
    · rcases hW : getTransactionReceipt env fuel (t.txHash.getD 0) st
        with ⟨r?, stW, trW⟩
      cases r? with
      | none =>
        simp only [checkReceipts, hS, Bool.false_eq_true, if_false, hW,
          Prod.mk.injEq] at h
        exact absurd h.1 (by simp)
      | some rec? =>
        cases rec? with
        | none =>
          simp only [checkReceipts, hS, Bool.false_eq_true, if_false, hW,
            Prod.mk.injEq] at h
          exact absurd h.1 (by simp)
        | some receipt =>
          by_cases hst : receipt.status
          · rcases hX : checkReceipts env fuel rest stW with ⟨r1, l1, st1, tr1⟩
            simp only [checkReceipts, hS, Bool.false_eq_true, if_false, hW,
              hst, if_true, hX, Prod.mk.injEq] at h
            obtain ⟨hr, -, -, htr⟩ := h
            subst htr
            obtain ⟨hh, hlast⟩ := ih stW r l1 st1 tr1 (by rw [hX, hr])
            refine ⟨hh, ?_⟩
            have hne : tr1 ≠ [] := by
              intro hnil; rw [hnil] at hlast; simp at hlast
            rw [List.getLast?_append_of_ne_nil trW hne]
            exact hlast
          · cases hre : receipt.revertError with
            | some e =>
              by_cases hname : e.name = "INCORRECT_STATE_HASH"
              · simp only [checkReceipts, hS, Bool.false_eq_true, if_false,
                  hW, hst, hre, hname, if_true, Prod.mk.injEq] at h
                obtain ⟨-, -, -, htr⟩ := h
                subst htr
                have := getTransactionReceipt_some_last env fuel
                  (t.txHash.getD 0) st receipt
                rw [hW] at this
                exact ⟨t.txHash.getD 0, this rfl⟩
              · simp only [checkReceipts, hS, Bool.false_eq_true, if_false,
                  hW, hst, hre, hname, if_false, Prod.mk.injEq] at h
                exact absurd h.1 (by simp)
            | none =>
              simp only [checkReceipts, hS, Bool.false_eq_true, if_false,
                hW, hst, hre, Prod.mk.injEq] at h
              exact absurd h.1 (by simp)

/-! ## Lemmas about the gas/balance gate -/

/-- The gate emits only sleep events. -/
theorem awaitGas_trace_sleeps (cfg : Config) (env : Env) (estimatedGas : Nat) :
    ∀ fuel st, ∀ e ∈ (awaitGasPriceBelowThresholdAndSufficientBalance
      cfg env estimatedGas fuel st).2.2, e = Event.sleep 60000 := by
  intro fuel
  induction fuel with
  | zero =>
    intro st e he
    simp [awaitGasPriceBelowThresholdAndSufficientBalance] at he
  | succ f ih =>
    intro st e he
    rcases hX : awaitGasPriceBelowThresholdAndSufficientBalance cfg env
      estimatedGas f (st + 3) with ⟨r, st', tr⟩
    by_cases hI : interrupted env st
    · simp [awaitGasPriceBelowThresholdAndSufficientBalance, hI] at he
    · cases hB : env.blockBaseFeeR st with
      | error u =>
        simp [awaitGasPriceBelowThresholdAndSufficientBalance, hI, hB] at he
      | ok baseFee =>
        cases hBal : env.balanceR (st + 1) with
        | error u =>
          simp [awaitGasPriceBelowThresholdAndSufficientBalance, hI, hB,
            hBal] at he
        | ok bal =>
          by_cases hFee : cfg.maxFeePerGas < baseFee + cfg.maxPriorityFeePerGas
          · simp only [awaitGasPriceBelowThresholdAndSufficientBalance, hI,
              hB, hBal, hFee, Bool.false_eq_true, if_false, if_true, hX,
              List.mem_cons] at he
            rcases he with he | he
            · exact he
            · have := ih (st + 3) e
              rw [hX] at this
              exact this he
          · by_cases hBalLt : bal < cfg.maxFeePerGas * estimatedGas
            · simp only [awaitGasPriceBelowThresholdAndSufficientBalance, hI,
                hB, hBal, hFee, hBalLt, Bool.false_eq_true, if_false, if_true,
                hX, List.mem_cons] at he
              rcases he with he | he
              · exact he
              · have := ih (st + 3) e
                rw [hX] at this
                exact this he
            · simp [awaitGasPriceBelowThresholdAndSufficientBalance, hI, hB,
                hBal, hFee, hBalLt] at he

/-- The gate contributes no `sendTxCall` events. -/
theorem awaitGas_sentPairs (cfg : Config) (env : Env)
    (estimatedGas fuel st : Nat) :
    sentPairs (awaitGasPriceBelowThresholdAndSufficientBalance cfg env
      estimatedGas fuel st).2.2 = [] := by
  rw [sentPairs, List.filterMap_eq_nil_iff]
  intro e he
  rw [awaitGas_trace_sleeps cfg env estimatedGas fuel st e he]

/-- If its two chain-client calls never raise, the gate never propagates an
exception. -/
theorem awaitGas_no_exn (cfg : Config) (env : Env) (estimatedGas : Nat)
    (hB : ∀ s, ∃ v, env.blockBaseFeeR s = .ok v)
    (hBal : ∀ s, ∃ v, env.balanceR s = .ok v) :
    ∀ fuel st, (awaitGasPriceBelowThresholdAndSufficientBalance cfg env
      estimatedGas fuel st).1 ≠ .exn := by
  intro fuel
  induction fuel with
  | zero =>
    intro st
    simp [awaitGasPriceBelowThresholdAndSufficientBalance]
  | succ f ih =>
    intro st
    rcases hX : awaitGasPriceBelowThresholdAndSufficientBalance cfg env
      estimatedGas f (st + 3) with ⟨r, st', tr⟩
    by_cases hI : interrupted env st
    · simp [awaitGasPriceBelowThresholdAndSufficientBalance, hI]
    · obtain ⟨bf, hbf⟩ := hB st
      obtain ⟨bal, hbal⟩ := hBal (st + 1)
      by_cases hFee : cfg.maxFeePerGas < bf + cfg.maxPriorityFeePerGas
      · simp only [awaitGasPriceBelowThresholdAndSufficientBalance, hI, hbf,
          hbal, hFee, Bool.false_eq_true, if_false, if_true, hX]
        have := ih (st + 3)
        rw [hX] at this
        simpa using this
      · by_cases hBalLt : bal < cfg.maxFeePerGas * estimatedGas
        · simp only [awaitGasPriceBelowThresholdAndSufficientBalance, hI, hbf,
            hbal, hFee, hBalLt, Bool.false_eq_true, if_false, if_true, hX]
          have := ih (st + 3)
          rw [hX] at this
          simpa using this
        · simp [awaitGasPriceBelowThresholdAndSufficientBalance, hI, hbf,
            hbal, hFee, hBalLt]

/-! ## Lemmas about the main retry loop -/

/-- A trace without recorded send pairs holds no wrapper-invocation event. -/
theorem not_send_mem_of_sentPairs_nil (tr : List Event)
    (h : sentPairs tr = []) (i p n : Nat) :
    Event.sendTxCall i p n ∉ tr := by
  intro hmem
  have := (sentPairs_mem tr i n).2 ⟨p, hmem⟩
  rw [h] at this
  simp at this

/-- Once an entry's confirmed flag is set, the main loop never invokes the
`sendTx` wrapper for that entry again — in this iteration or any later
one. -/
theorem mainLoop_no_resend (cfg : Config) (env : Env) (rid gas : Nat) :
    ∀ fuel l st (i : Nat) (ts : TxStatus), l[i]? = some ts →
      ts.success = true → ∀ p n,
      Event.sendTxCall i p n ∉ (mainLoop cfg env rid gas fuel l st).2.2.2 := by
  intro fuel
  induction fuel with
  | zero =>
    intro l st i ts hget hsucc p n
    simp [mainLoop]
  | succ f ih =>
    intro l st i ts hget hsucc p n hmem
    by_cases hI : interrupted env st
    · simp [mainLoop, hI] at hmem
    · rcases hG : awaitGasPriceBelowThresholdAndSufficientBalance cfg env gas
        (f + 1) st with ⟨gr, st1, trG⟩
      have hGclean : Event.sendTxCall i p n ∉ trG := by
        have := awaitGas_sentPairs cfg env gas (f + 1) st
        rw [hG] at this
        exact not_send_mem_of_sentPairs_nil trG this i p n
      cases gr with
      | exn => simp only [mainLoop, hI, Bool.false_eq_true, if_false, hG] at hmem
               exact hGclean hmem
      | diverge => simp only [mainLoop, hI, Bool.false_eq_true, if_false, hG] at hmem
                   exact hGclean hmem
      | ok u =>
        by_cases hI1 : interrupted env st1
        · simp only [mainLoop, hI, Bool.false_eq_true, if_false, hG, hI1,
            if_true] at hmem
          exact hGclean hmem
        · cases hT : env.txCountR st1 with
          | error e =>
            simp only [mainLoop, hI, Bool.false_eq_true, if_false, hG, hI1,
              hT] at hmem
            exact hGclean hmem
          | ok n0 =>
            rcases hS : sendTxs env (f + 1) 0 l n0 (st1 + 1)
              with ⟨sr, l2, st2, trS⟩
            have hSclean : Event.sendTxCall i p n ∉ trS := by
              intro hm
              obtain ⟨-, -, ts', hget', hsucc', -⟩ := by
                have := sendTxs_pairs_mem env (f + 1) l 0 n0 (st1 + 1) i p n
                rw [hS] at this
                exact this hm
              rw [Nat.sub_zero, List.get?_eq_getElem?, hget] at hget'
              cases hget'
              rw [hsucc] at hsucc'
              simp at hsucc'
            cases sr with
            | none =>
              simp only [mainLoop, hI, Bool.false_eq_true, if_false, hG, hI1,
                hT, hS, List.mem_append] at hmem
              rcases hmem with hm | hm
              · exact hGclean hm
              · exact hSclean hm
            | some u2 =>
              have hl2 : ∃ h?, l2[i]? = some { ts with txHash := h? } := by
                have := sendTxs_entries env (f + 1) l 0 n0 (st1 + 1) i ts
                  (by rw [hget])
                rw [hS] at this
                exact this
              obtain ⟨h2, hl2⟩ := hl2
              by_cases hAny : l2.any (fun s => s.txHash.isNone)
              · simp only [mainLoop, hI, Bool.false_eq_true, if_false, hG, hI1,
                  hT, hS, hAny, if_true, List.mem_append] at hmem
                rcases hmem with hm | hm
                · exact hGclean hm
                · exact hSclean hm
              · cases hC : env.confirmSentR st2 with
                | error e =>
                  simp only [mainLoop, hI, Bool.false_eq_true, if_false, hG,
                    hI1, hT, hS, hAny, hC, List.mem_append] at hmem
                  rcases hmem with hm | hm
                  · exact hGclean hm
                  · exact hSclean hm
                | ok u3 =>
                  rcases hR : checkReceipts env (f + 1) l2 (st2 + 1)
                    with ⟨ro, l3, st3, trR⟩
                  have hRclean : Event.sendTxCall i p n ∉ trR := by
                    have := checkReceipts_sentPairs env (f + 1) l2 (st2 + 1)
                    rw [hR] at this
                    exact not_send_mem_of_sentPairs_nil trR this i p n
                  have hl3 : ∃ ts3, l3[i]? = some ts3 ∧ ts3.success = true := by
                    have := checkReceipts_entries env (f + 1) l2 (st2 + 1) i
                      { ts with txHash := h2 } hl2
                    rw [hR] at this
                    rcases this with h3 | h3
                    · exact ⟨_, h3, by simpa using hsucc⟩
                    · exact ⟨_, h3, rfl⟩
                  obtain ⟨ts3, hget3, hsucc3⟩ := hl3
                  cases ro with
                  | allOk =>
                    simp only [mainLoop, hI, Bool.false_eq_true, if_false, hG,
                      hI1, hT, hS, hAny, hC, hR, List.append_assoc,
                      List.mem_append, List.mem_singleton] at hmem
                    rcases hmem with hm | hm | hm
                    · exact hGclean hm
                    · exact hSclean hm
                    · rcases hm with hm | hm
                      · simp at hm
                      · exact hRclean hm
                  | noReceipt =>
                    simp only [mainLoop, hI, Bool.false_eq_true, if_false, hG,
                      hI1, hT, hS, hAny, hC, hR, List.append_assoc,
                      List.mem_append, List.mem_singleton] at hmem
                    rcases hmem with hm | hm | hm
                    · exact hGclean hm
                    · exact hSclean hm
                    · rcases hm with hm | hm
                      · simp at hm
                      · exact hRclean hm
                  | fatal rc =>
                    simp only [mainLoop, hI, Bool.false_eq_true, if_false, hG,
                      hI1, hT, hS, hAny, hC, hR, List.append_assoc,
                      List.mem_append, List.mem_singleton] at hmem
                    rcases hmem with hm | hm | hm
                    · exact hGclean hm
                    · exact hSclean hm
                    · rcases hm with hm | hm
                      · simp at hm
                      · exact hRclean hm
                  | diverge =>
                    simp only [mainLoop, hI, Bool.false_eq_true, if_false, hG,
                      hI1, hT, hS, hAny, hC, hR, List.append_assoc,
                      List.mem_append, List.mem_singleton] at hmem
                    rcases hmem with hm | hm | hm
                    · exact hGclean hm
                    · exact hSclean hm
                    · rcases hm with hm | hm
                      · simp at hm
                      · exact hRclean hm
                  | retryMain =>
                    rcases hM : mainLoop cfg env rid gas f l3 st3
                      with ⟨res, l4, st4, trM⟩
                    have hMclean : Event.sendTxCall i p n ∉ trM := by
                      have := ih l3 st3 i ts3 hget3 hsucc3 p n
                      rw [hM] at this
                      exact this
                    simp only [mainLoop, hI, Bool.false_eq_true, if_false, hG,
                      hI1, hT, hS, hAny, hC, hR, hM, List.append_assoc,
                      List.mem_append, List.mem_singleton] at hmem
                    rcases hmem with hm | hm | hm
                    · exact hGclean hm
                    · exact hSclean hm
                    · rcases hm with hm | hm | hm
                      · simp at hm
                      · exact hRclean hm
                      · exact hMclean hm

/-- When the main loop returns `true` (PUBLISHED), every entry of the final
status list has the confirmed flag set. -/
theorem mainLoop_published_all_success (cfg : Config) (env : Env)
    (rid gas : Nat) :
    ∀ fuel l st l' st' tr,
      mainLoop cfg env rid gas fuel l st = (.ok true, l', st', tr) →
      ∀ ts ∈ l', ts.success = true := by
  intro fuel
  induction fuel with
  | zero =>
    intro l st l' st' tr h
    simp only [mainLoop, Prod.mk.injEq] at h
    exact absurd h.1 (by simp)
  | succ f ih =>
    intro l st l' st' tr h
    by_cases hI : interrupted env st
    · simp only [mainLoop, hI, if_true, Prod.mk.injEq] at h
      exact absurd h.1 (by simp)
    · rcases hG : awaitGasPriceBelowThresholdAndSufficientBalance cfg env gas
        (f + 1) st with ⟨gr, st1, trG⟩
      cases gr with
      | exn =>
        simp only [mainLoop, hI, Bool.false_eq_true, if_false, hG,
          Prod.mk.injEq] at h
        exact absurd h.1 (by simp)
      | diverge =>
        simp only [mainLoop, hI, Bool.false_eq_true, if_false, hG,
          Prod.mk.injEq] at h
        exact absurd h.1 (by simp)
      | ok u =>
        by_cases hI1 : interrupted env st1
        · simp only [mainLoop, hI, Bool.false_eq_true, if_false, hG, hI1,
            if_true, Prod.mk.injEq] at h
          exact absurd h.1 (by simp)
        · cases hT : env.txCountR st1 with
          | error e =>
            simp only [mainLoop, hI, Bool.false_eq_true, if_false, hG, hI1,
              hT, Prod.mk.injEq] at h
            exact absurd h.1 (by simp)
          | ok n0 =>
            rcases hS : sendTxs env (f + 1) 0 l n0 (st1 + 1)
              with ⟨sr, l2, st2, trS⟩
            cases sr with
            | none =>
              simp only [mainLoop, hI, Bool.false_eq_true, if_false, hG, hI1,
                hT, hS, Prod.mk.injEq] at h
              exact absurd h.1 (by simp)
            | some u2 =>
              by_cases hAny : l2.any (fun s => s.txHash.isNone)
              · simp only [mainLoop, hI, Bool.false_eq_true, if_false, hG,
                  hI1, hT, hS, hAny, if_true, Prod.mk.injEq] at h
                exact absurd h.1 (by simp)
              · cases hC : env.confirmSentR st2 with
                | error e =>
                  simp only [mainLoop, hI, Bool.false_eq_true, if_false, hG,
                    hI1, hT, hS, hAny, hC, Prod.mk.injEq] at h
                  exact absurd h.1 (by simp)
                | ok u3 =>
                  rcases hR : checkReceipts env (f + 1) l2 (st2 + 1)
                    with ⟨ro, l3, st3, trR⟩
                  cases ro with
                  | allOk =>
                    simp only [mainLoop, hI, Bool.false_eq_true, if_false, hG,
                      hI1, hT, hS, hAny, hC, hR, Prod.mk.injEq] at h
                    obtain ⟨-, hl, -, -⟩ := h
                    subst hl
                    exact checkReceipts_allOk env (f + 1) l2 (st2 + 1) _ st3
                      trR hR
                  | noReceipt =>
                    simp only [mainLoop, hI, Bool.false_eq_true, if_false, hG,
                      hI1, hT, hS, hAny, hC, hR, Prod.mk.injEq] at h
                    exact absurd h.1 (by simp)
                  | fatal rc =>
                    simp only [mainLoop, hI, Bool.false_eq_true, if_false, hG,
                      hI1, hT, hS, hAny, hC, hR, Prod.mk.injEq] at h
                    exact absurd h.1 (by simp)
                  | diverge =>
                    simp only [mainLoop, hI, Bool.false_eq_true, if_false, hG,
                      hI1, hT, hS, hAny, hC, hR, Prod.mk.injEq] at h
                    exact absurd h.1 (by simp)
                  | retryMain =>
                    rcases hM : mainLoop cfg env rid gas f l3 st3
                      with ⟨res, l4, st4, trM⟩
                    simp only [mainLoop, hI, Bool.false_eq_true, if_false, hG,
                      hI1, hT, hS, hAny, hC, hR, hM, Prod.mk.injEq] at h
                    obtain ⟨hres, hl, -, -⟩ := h
                    subst hres
                    subst hl
                    exact ih l3 st3 _ st4 trM hM

/-- Unfolding one main-loop iteration up to the send phase: whatever happens
afterwards, the iteration's trace starts with the gate trace followed by the
send-phase trace. -/
theorem mainLoop_iter_trace (cfg : Config) (env : Env) (rid gas : Nat)
    (f : Nat) (l : List TxStatus) (st st1 st2 n0 : Nat)
    (trG trS : List Event) (sr : Option Unit) (l2 : List TxStatus)
    (hI : interrupted env st = false)
    (hG : awaitGasPriceBelowThresholdAndSufficientBalance cfg env gas
      (f + 1) st = (.ok (), st1, trG))
    (hI1 : interrupted env st1 = false)
    (hT : env.txCountR st1 = .ok n0)
    (hS : sendTxs env (f + 1) 0 l n0 (st1 + 1) = (sr, l2, st2, trS)) :
    ∃ res l4 st4 trRest,
      mainLoop cfg env rid gas (f + 1) l st = (res, l4, st4, trG ++ trS ++ trRest) := by
  cases sr with
  | none =>
    refine ⟨.diverge, l2, st2, [], ?_⟩
    simp [mainLoop, hI, hG, hI1, hT, hS]
  | some u2 =>
    by_cases hAny : l2.any (fun s => s.txHash.isNone)
    · refine ⟨.ok false, l2, st2, [], ?_⟩
      simp [mainLoop, hI, hG, hI1, hT, hS, hAny]
    · cases hC : env.confirmSentR st2 with
      | error e =>
        refine ⟨.exn, l2, st2 + 1, [], ?_⟩
        simp [mainLoop, hI, hG, hI1, hT, hS, hAny, hC]
      | ok u3 =>
        rcases hR : checkReceipts env (f + 1) l2 (st2 + 1)
          with ⟨ro, l3, st3, trR⟩
        cases ro with
        | allOk =>
          refine ⟨.ok true, l3, st3,
            Event.confirmSent rid (((l2.getLast?).bind
              (fun s => s.txHash)).getD 0) :: trR, ?_⟩
          simp [mainLoop, hI, hG, hI1, hT, hS, hAny, hC, hR]
        | noReceipt =>
          refine ⟨.ok false, l3, st3,
            Event.confirmSent rid (((l2.getLast?).bind
              (fun s => s.txHash)).getD 0) :: trR, ?_⟩
          simp [mainLoop, hI, hG, hI1, hT, hS, hAny, hC, hR]
        | fatal rc =>
          refine ⟨.ok false, l3, st3,
            Event.confirmSent rid (((l2.getLast?).bind
              (fun s => s.txHash)).getD 0) :: trR, ?_⟩
          simp [mainLoop, hI, hG, hI1, hT, hS, hAny, hC, hR]
        | diverge =>
          refine ⟨.diverge, l3, st3,
            Event.confirmSent rid (((l2.getLast?).bind
              (fun s => s.txHash)).getD 0) :: trR, ?_⟩
          simp [mainLoop, hI, hG, hI1, hT, hS, hAny, hC, hR]
        | retryMain =>
          rcases hM : mainLoop cfg env rid gas f l3 st3
            with ⟨res, l4, st4, trM⟩
          refine ⟨res, l4, st4,
            Event.confirmSent rid (((l2.getLast?).bind
              (fun s => s.txHash)).getD 0) :: (trR ++ trM), ?_⟩
          simp [mainLoop, hI, hG, hI1, hT, hS, hAny, hC, hR, hM]

/-- Unfolding one main-loop iteration whose receipt phase ends with a fatal
`INCORRECT_STATE_HASH` revert: the whole loop returns ABORTED there,
with nothing appended after the receipt-phase trace. -/
theorem mainLoop_iter_fatal (cfg : Config) (env : Env) (rid gas : Nat)
    (f : Nat) (l : List TxStatus) (st st1 st2 st3 n0 : Nat)
    (trG trS trR : List Event) (l2 l3 : List TxStatus) (rc : Receipt)
    (hI : interrupted env st = false)
    (hG : awaitGasPriceBelowThresholdAndSufficientBalance cfg env gas
      (f + 1) st = (.ok (), st1, trG))
    (hI1 : interrupted env st1 = false)
    (hT : env.txCountR st1 = .ok n0)
    (hS : sendTxs env (f + 1) 0 l n0 (st1 + 1) = (some (), l2, st2, trS))
    (hAny : l2.any (fun s => s.txHash.isNone) = false)
    (hC : env.confirmSentR st2 = .ok ())
    (hR : checkReceipts env (f + 1) l2 (st2 + 1) = (.fatal rc, l3, st3, trR)) :
    mainLoop cfg env rid gas (f + 1) l st = (.ok false, l3, st3,
      trG ++ trS ++ Event.confirmSent rid
        (((l2.getLast?).bind (fun s => s.txHash)).getD 0) :: trR) := by
  simp [mainLoop, hI, hG, hI1, hT, hS, hAny, hC, hR]

/-- Unfolding one main-loop iteration whose receipt phase found no receipt
for some unconfirmed transaction: the whole loop returns ABORTED there. -/
theorem mainLoop_iter_noReceipt (cfg : Config) (env : Env) (rid gas : Nat)
    (f : Nat) (l : List TxStatus) (st st1 st2 st3 n0 : Nat)
    (trG trS trR : List Event) (l2 l3 : List TxStatus)
    (hI : interrupted env st = false)
    (hG : awaitGasPriceBelowThresholdAndSufficientBalance cfg env gas
      (f + 1) st = (.ok (), st1, trG))
    (hI1 : interrupted env st1 = false)
    (hT : env.txCountR st1 = .ok n0)
    (hS : sendTxs env (f + 1) 0 l n0 (st1 + 1) = (some (), l2, st2, trS))
    (hAny : l2.any (fun s => s.txHash.isNone) = false)
    (hC : env.confirmSentR st2 = .ok ())
    (hR : checkReceipts env (f + 1) l2 (st2 + 1) = (.noReceipt, l3, st3, trR)) :
    mainLoop cfg env rid gas (f + 1) l st = (.ok false, l3, st3,
      trG ++ trS ++ Event.confirmSent rid
        (((l2.getLast?).bind (fun s => s.txHash)).getD 0) :: trR) := by
  simp [mainLoop, hI, hG, hI1, hT, hS, hAny, hC, hR]

/-- Under total uncaught oracles the main loop never propagates an
exception, no matter how often `blockchain.sendTx` or the receipt fetch
throw. -/
theorem mainLoop_no_exn (cfg : Config) (env : Env) (rid gas : Nat)
    (hTot : UncaughtTotal env) :
    ∀ fuel l st, (mainLoop cfg env rid gas fuel l st).1 ≠ .exn := by
  obtain ⟨-, -, -, -, hB, hBal, hT, hC⟩ := hTot
  intro fuel
  induction fuel with
  | zero => intro l st; simp [mainLoop]
  | succ f ih =>
    intro l st
    by_cases hI : interrupted env st
    · simp [mainLoop, hI]
    · rcases hG : awaitGasPriceBelowThresholdAndSufficientBalance cfg env gas
        (f + 1) st with ⟨gr, st1, trG⟩
      cases gr with
      | exn =>
        have := awaitGas_no_exn cfg env gas hB hBal (f + 1) st
        rw [hG] at this
        simp at this
      | diverge =>
        simp [mainLoop, hI, hG]
      | ok u =>
        by_cases hI1 : interrupted env st1
        · simp [mainLoop, hI, hG, hI1]
        · obtain ⟨n0, hn0⟩ := hT st1
          rcases hS : sendTxs env (f + 1) 0 l n0 (st1 + 1)
            with ⟨sr, l2, st2, trS⟩
          cases sr with
          | none => simp [mainLoop, hI, hG, hI1, hn0, hS]
          | some u2 =>
            by_cases hAny : l2.any (fun s => s.txHash.isNone)
            · simp [mainLoop, hI, hG, hI1, hn0, hS, hAny]
            · rcases hR : checkReceipts env (f + 1) l2 (st2 + 1)
                with ⟨ro, l3, st3, trR⟩
              cases ro with
              | allOk => simp [mainLoop, hI, hG, hI1, hn0, hS, hAny, hC st2, hR]
              | noReceipt => simp [mainLoop, hI, hG, hI1, hn0, hS, hAny, hC st2, hR]
              | fatal rc => simp [mainLoop, hI, hG, hI1, hn0, hS, hAny, hC st2, hR]
              | diverge => simp [mainLoop, hI, hG, hI1, hn0, hS, hAny, hC st2, hR]
              | retryMain =>
                rcases hM : mainLoop cfg env rid gas f l3 st3
                  with ⟨res, l4, st4, trM⟩
                have := ih l3 st3
                rw [hM] at this
                simp only [mainLoop, hI, hG, hI1, hn0, hS, hAny, hC st2, hR,
                  hM, Bool.false_eq_true, if_false]
                simpa using this

/-- Under total approval oracles the signature-collection loop never
propagates an exception. -/
theorem collectSignatures_no_exn (env : Env)
    (hA : ∀ s p, ∃ v, env.approvalR s p = .ok v) :
    ∀ txs st, ∃ sigs st', collectSignatures env txs st = (.ok sigs, st') := by
  intro txs
  induction txs with
  | nil => intro st; exact ⟨[], st, rfl⟩
  | cons tx rest ih =>
    intro st
    obtain ⟨v, hv⟩ := hA st tx.proofData
    obtain ⟨sigs, st', hrec⟩ := ih (st + 1)
    refine ⟨if v then sigs else tx.signature.getD 0 :: sigs, st', ?_⟩
    simp [collectSignatures, hv, hrec]

/-- Under total uncaught oracles `publishRollup` never propagates an
exception: its outcome is PUBLISHED, ABORTED, or still-running (out of
fuel) — even when `blockchain.sendTx` and the receipt fetch throw
arbitrarily often. -/
theorem publishRollup_no_exn (cfg : Config) (env : Env)
    (fuel : Nat) (rollup : RollupDao) (gas st0 : Nat)
    (hTot : UncaughtTotal env) :
    (publishRollup cfg env fuel rollup gas st0).1 ≠ .exn := by
  obtain ⟨⟨a, ha⟩, hA, ⟨txs, hCr⟩, hSet, -, -, -, -⟩ := id hTot
  obtain ⟨sigs, st', hsig⟩ := collectSignatures_no_exn env hA
    (rollup.txs.filter (fun tx => tx.signature.isSome)) st0
  rcases txs with ⟨proofTx, offs⟩
  have hcd : createTxData env rollup st0 = (.ok (proofTx, offs), st' + 1) := by
    simp [createTxData, hsig, hCr]
  have := mainLoop_no_exn cfg env rollup.id gas hTot
    fuel (txStatusesInit offs proofTx) (st' + 1 + 2)
  simp only [publishRollup, hcd, hSet, ha]
  exact this

/-! ## Claim theorems -/

/-- C1: in every iteration of the main retry loop of a `publishRollup`
call, the nonces passed to the `sendTx` wrapper form a contiguous
strictly-increasing sequence starting at the value just returned by
`getTransactionCount`, and entries whose confirmed flag is already set are
skipped (no send is recorded for them) and consume no nonce (the run stays
contiguous over the entries actually sent). -/
theorem claim_C1_nonces_contiguous (cfg : Config) (env : Env)
    (rid gas f : Nat) (l l2 : List TxStatus) (st st1 st2 n0 : Nat)
    (trG trS : List Event) (sr : Option Unit)
    (hI : interrupted env st = false)
    (hG : awaitGasPriceBelowThresholdAndSufficientBalance cfg env gas
      (f + 1) st = (.ok (), st1, trG))
    (hI1 : interrupted env st1 = false)
    (hT : env.txCountR st1 = .ok n0)
    (hS : sendTxs env (f + 1) 0 l n0 (st1 + 1) = (sr, l2, st2, trS)) :
    sentNonces trS = List.range' n0 (sentNonces trS).length ∧
    (∀ i p n, Event.sendTxCall i p n ∈ trS →
      ∃ ts, l[i]? = some ts ∧ ts.success = false ∧ ts.tx = p) ∧
    (∃ res l4 st4 trRest, mainLoop cfg env rid gas (f + 1) l st =
      (res, l4, st4, trG ++ trS ++ trRest)) := by
  refine ⟨?_, ?_, mainLoop_iter_trace cfg env rid gas f l st st1 st2 n0
    trG trS sr l2 hI hG hI1 hT hS⟩
  · have := sendTxs_nonces env (f + 1) l 0 n0 (st1 + 1)
    rw [hS] at this
    exact this
  · intro i p n hmem
    have := sendTxs_pairs_mem env (f + 1) l 0 n0 (st1 + 1) i p n
    rw [hS] at this
    obtain ⟨-, -, ts, hget, hsucc, htx⟩ := this hmem
    rw [Nat.sub_zero, List.get?_eq_getElem?] at hget
    exact ⟨ts, hget, hsucc, htx⟩

/-- C1 witness: with two broadcast payloads, an unconfirmed status list and
starting nonce 7, the recorded nonces are exactly 7, 8, 9. -/
theorem claim_C1_witness :
    sentNonces [Event.sendTxCall 0 20 7, Event.sendTxCall 1 21 8,
        Event.sendTxCall 2 10 9] =
      List.range' 7 (sentNonces [Event.sendTxCall 0 20 7,
        Event.sendTxCall 1 21 8, Event.sendTxCall 2 10 9]).length :=
  (claim_C1_nonces_contiguous cfgW envW 3 10 2 lW
    [{ success := false, txHash := some 106, tx := 20, name := "broadcast data 1/2" },
     { success := false, txHash := some 107, tx := 21, name := "broadcast data 2/2" },
     { success := false, txHash := some 108, tx := 10, name := "rollup proof" }]
    3 5 9 7 [] _ (some ())
    (by decide) (by decide) (by decide) rfl (by decide)).1

/-- C2: the rollup-proof transaction is the last entry of the status list,
and within any one iteration's send phase, any send recorded for the last
(rollup-proof) entry comes after every send recorded for another entry and
carries a strictly greater nonce. -/
theorem claim_C2_proof_last_highest_nonce (env : Env) (fuel : Nat)
    (offs : List Nat) (proofTx : Nat) (l l2 : List TxStatus)
    (n0 st st2 : Nat) (trS : List Event) (sr : Option Unit)
    (hS : sendTxs env fuel 0 l n0 st = (sr, l2, st2, trS)) :
    (txStatusesInit offs proofTx).getLast? =
      some { success := false, txHash := none, tx := proofTx,
             name := "rollup proof" } ∧
    (∀ (ia ib : Nat) (a b : Nat × Nat), (sentPairs trS)[ia]? = some a →
      (sentPairs trS)[ib]? = some b → a.1 = l.length - 1 →
      b.1 ≠ l.length - 1 → ib < ia ∧ b.2 < a.2) := by
  constructor
  · exact List.getLast?_concat _
  · have hPW := sendTxs_pairs_pairwise env fuel l 0 n0 st
    rw [hS] at hPW
    have hBound : ∀ pr ∈ sentPairs trS, pr.1 < l.length := by
      intro pr hpr
      obtain ⟨p, hp⟩ := (sentPairs_mem trS pr.1 pr.2).1 (by
        cases pr; exact hpr)
      have := sendTxs_pairs_mem env fuel l 0 n0 st pr.1 p pr.2
      rw [hS] at this
      obtain ⟨-, -, ts, hget, -, -⟩ := this hp
      rw [Nat.sub_zero, List.get?_eq_getElem?] at hget
      exact (List.getElem?_eq_some_iff.1 hget).1
    intro ia ib a b ha hb haL hbL
    obtain ⟨hia, hga⟩ := List.getElem?_eq_some_iff.1 ha
    obtain ⟨hib, hgb⟩ := List.getElem?_eq_some_iff.1 hb
    rcases Nat.lt_trichotomy ia ib with hlt | heq | hgt
    · exfalso
      have hP := List.pairwise_iff_getElem.1 hPW ia ib hia hib hlt
      rw [hga, hgb] at hP
      have hbmem : b ∈ sentPairs trS := by
        rw [← hgb]; exact List.getElem_mem hib
      have := hBound b hbmem
      omega
    · exfalso
      subst heq
      rw [hga] at hgb
      subst hgb
      exact hbL haL
    · have hP := List.pairwise_iff_getElem.1 hPW ib ia hib hia hgt
      rw [hga, hgb] at hP
      exact ⟨hgt, hP.2⟩

/-- C2 witness: in the concrete happy-path send phase the rollup-proof
entry (index 2) is sent after broadcast entry 0 and with a greater nonce
(9 over 7), and the status list of two broadcasts ends with the proof
entry. -/
theorem claim_C2_witness :
    (txStatusesInit [20, 21] 10).getLast? =
      some { success := false, txHash := none, tx := 10,
             name := "rollup proof" } ∧ (0 < 2 ∧ 7 < 9) := by
  have h := claim_C2_proof_last_highest_nonce envW 3 [20, 21] 10 lW
    [{ success := false, txHash := some 106, tx := 20, name := "broadcast data 1/2" },
     { success := false, txHash := some 107, tx := 21, name := "broadcast data 2/2" },
     { success := false, txHash := some 108, tx := 10, name := "rollup proof" }]
    7 6 9
    [Event.sendTxCall 0 20 7, Event.sendTxCall 1 21 8, Event.sendTxCall 2 10 9]
    (some ()) (by decide)
  exact ⟨h.1, h.2 2 0 (2, 9) (0, 7) (by decide) (by decide) (by decide)
    (by decide)⟩

/-- C3: once a status entry's confirmed flag is set, that entry is never
passed to the `sendTx` wrapper again in any remaining iteration of the same
publish call (its index never reappears in a send event of the remaining
trace). -/
theorem claim_C3_confirmed_never_resent (cfg : Config) (env : Env)
    (rid gas fuel : Nat) (l : List TxStatus) (st : Nat) (i : Nat)
    (ts : TxStatus) (hget : l[i]? = some ts) (hsucc : ts.success = true)
    (p n : Nat) :
    Event.sendTxCall i p n ∉ (mainLoop cfg env rid gas fuel l st).2.2.2 :=
  mainLoop_no_resend cfg env rid gas fuel l st i ts hget hsucc p n

/-- C3 witness: in the retry iteration, the confirmed broadcast entry 0 is
never sent again (while the unconfirmed proof entry is re-sent). -/
theorem claim_C3_witness :
    Event.sendTxCall 0 20 7 ∉ (mainLoop cfgW envRetryW 3 10 4 l3W 14).2.2.2 :=
  claim_C3_confirmed_never_resent cfgW envRetryW 3 10 4 l3W 14 0
    { success := true, txHash := some 106, tx := 20,
      name := "broadcast data 1/2" } (by decide) rfl 20 7

/-- C4: whenever `publishRollup` returns PUBLISHED (`true`), every entry of
the final status list — broadcasts and rollup proof alike — has its
confirmed flag set. -/
theorem claim_C4_published_all_confirmed (cfg : Config) (env : Env)
    (fuel : Nat) (rollup : RollupDao) (gas st0 : Nat) (l' : List TxStatus)
    (st' : Nat) (tr : List Event)
    (h : publishRollup cfg env fuel rollup gas st0 = (.ok true, l', st', tr)) :
    l'.all (fun ts => ts.success) = true := by
  rcases hcd : createTxData env rollup st0 with ⟨cr, stc⟩
  cases cr with
  | exn =>
    simp only [publishRollup, hcd, Prod.mk.injEq] at h
    exact absurd h.1 (by simp)
  | diverge =>
    simp only [publishRollup, hcd, Prod.mk.injEq] at h
    exact absurd h.1 (by simp)
  | ok pr =>
    rcases pr with ⟨proofTx, offs⟩
    cases hsc : env.setCallDataR with
    | error e =>
      simp only [publishRollup, hcd, hsc, Prod.mk.injEq] at h
      exact absurd h.1 (by simp)
    | ok u =>
      cases hacc : env.accountsR with
      | error e =>
        simp only [publishRollup, hcd, hsc, hacc, Prod.mk.injEq] at h
        exact absurd h.1 (by simp)
      | ok a =>
        simp only [publishRollup, hcd, hsc, hacc] at h
        rw [List.all_eq_true]
        intro ts hts
        have := mainLoop_published_all_success cfg env rollup.id gas fuel
          (txStatusesInit offs proofTx) (stc + 2) l' st' tr h ts hts
        simpa using this

/-- C4 witness: the happy-path publish returns PUBLISHED and its final
status list is fully confirmed. -/
theorem claim_C4_witness :
    List.all
      ([{ success := true, txHash := some 106, tx := 20, name := "broadcast data 1/2" },
        { success := true, txHash := some 107, tx := 21, name := "broadcast data 2/2" },
        { success := true, txHash := some 108, tx := 10, name := "rollup proof" }] :
        List TxStatus)
      (fun ts => ts.success) = true :=
  claim_C4_published_all_confirmed cfgW envW 5 rollupW 10 0
    [{ success := true, txHash := some 106, tx := 20, name := "broadcast data 1/2" },
     { success := true, txHash := some 107, tx := 21, name := "broadcast data 2/2" },
     { success := true, txHash := some 108, tx := 10, name := "rollup proof" }]
    13
    [Event.sendTxCall 0 20 7, Event.sendTxCall 1 21 8, Event.sendTxCall 2 10 9,
     Event.confirmSent 3 108, Event.getReceipt 106, Event.getReceipt 107,
     Event.getReceipt 108]
    (by decide)

/-- C5: if a fetched receipt has its status bit clear and decodes to the
`INCORRECT_STATE_HASH` revert, the publish aborts immediately: the receipt
loop stops right at that fetch (conclusion 5), the main loop returns
ABORTED with nothing appended after the receipt-phase trace (conclusion 1),
the last event of the whole iteration trace is that receipt fetch — so no
further send and no further sleep happen in the call (conclusion 3/4) — and
a fatal outcome indeed stems from such a receipt (conclusion 2). -/
theorem claim_C5_fatal_revert_aborts (cfg : Config) (env : Env)
    (rid gas : Nat) (f : Nat) (l : List TxStatus)
    (st st1 st2 st3 n0 : Nat) (trG trS trR : List Event)
    (l2 l3 : List TxStatus) (rc : Receipt)
    (hI : interrupted env st = false)
    (hG : awaitGasPriceBelowThresholdAndSufficientBalance cfg env gas
      (f + 1) st = (.ok (), st1, trG))
    (hI1 : interrupted env st1 = false)
    (hT : env.txCountR st1 = .ok n0)
    (hS : sendTxs env (f + 1) 0 l n0 (st1 + 1) = (some (), l2, st2, trS))
    (hAny : l2.any (fun s => s.txHash.isNone) = false)
    (hC : env.confirmSentR st2 = .ok ())
    (hR : checkReceipts env (f + 1) l2 (st2 + 1) = (.fatal rc, l3, st3, trR)) :
    mainLoop cfg env rid gas (f + 1) l st = (.ok false, l3, st3,
      trG ++ trS ++ Event.confirmSent rid
        (((l2.getLast?).bind (fun s => s.txHash)).getD 0) :: trR) ∧
    (rc.status = false ∧ ∃ e, rc.revertError = some e ∧
      e.name = "INCORRECT_STATE_HASH") ∧
    (∃ hh, (trG ++ trS ++ Event.confirmSent rid
        (((l2.getLast?).bind (fun s => s.txHash)).getD 0) :: trR).getLast? =
      some (Event.getReceipt hh)) ∧
    (∀ i p n, Event.sendTxCall i p n ∉ trR) ∧
    (∀ (fuelx : Nat) (ts : TxStatus) (rest : List TxStatus)
      (stx stWx : Nat) (trWx : List Event) (rx : Receipt) (ex : RevertError),
      ts.success = false →
      getTransactionReceipt env fuelx (ts.txHash.getD 0) stx =
        (some (some rx), stWx, trWx) →
      rx.status = false → rx.revertError = some ex →
      ex.name = "INCORRECT_STATE_HASH" →
      checkReceipts env fuelx (ts :: rest) stx =
        (.fatal rx, ts :: rest, stWx, trWx)) := by
  obtain ⟨hh, hlast⟩ := checkReceipts_fatal_last env (f + 1) l2 (st2 + 1)
    rc l3 st3 trR hR
  have htrR_ne : trR ≠ [] := by
    intro hnil; rw [hnil] at hlast; simp at hlast
  refine ⟨mainLoop_iter_fatal cfg env rid gas f l st st1 st2 st3 n0 trG trS
      trR l2 l3 rc hI hG hI1 hT hS hAny hC hR,
    checkReceipts_fatal_shape env (f + 1) l2 (st2 + 1) rc l3 st3 trR hR,
    ⟨hh, ?_⟩, ?_, ?_⟩
  · generalize (((l2.getLast?).bind (fun s => s.txHash)).getD 0) = hh0
    have h1 : ((trG ++ trS) ++ Event.confirmSent rid hh0 :: trR).getLast? =
        (Event.confirmSent rid hh0 :: trR).getLast? :=
      List.getLast?_append_of_ne_nil (trG ++ trS) (by simp)
    have h3 : (Event.confirmSent rid hh0 :: trR).getLast? = trR.getLast? := by
      have := List.getLast?_append_of_ne_nil [Event.confirmSent rid hh0] htrR_ne
      simpa using this
    rw [h1, h3]
    exact hlast
  · intro i p n
    have := checkReceipts_sentPairs env (f + 1) l2 (st2 + 1)
    rw [hR] at this
    exact not_send_mem_of_sentPairs_nil trR this i p n
  · intro fuelx ts rest stx stWx trWx rx ex hsucc hfetch hstatus hre hname
    simp [checkReceipts, hsucc, hfetch, hstatus, hre, hname]

/-- C5 witness: with the fatal environment, the whole iteration returns
ABORTED with the fatal fetch as the final event. -/
theorem claim_C5_witness :
    mainLoop cfgW envFatalW 3 10 5 lW 3 = (.ok false,
      [{ success := true, txHash := some 106, tx := 20, name := "broadcast data 1/2" },
       { success := true, txHash := some 107, tx := 21, name := "broadcast data 2/2" },
       { success := false, txHash := some 108, tx := 10, name := "rollup proof" }],
      13,
      [] ++ [Event.sendTxCall 0 20 7, Event.sendTxCall 1 21 8,
        Event.sendTxCall 2 10 9] ++ Event.confirmSent 3
        (((([{ success := false, txHash := some 106, tx := 20, name := "broadcast data 1/2" },
             { success := false, txHash := some 107, tx := 21, name := "broadcast data 2/2" },
             { success := false, txHash := some 108, tx := 10, name := "rollup proof" }] :
             List TxStatus).getLast?).bind (fun s => s.txHash)).getD 0) ::
        [Event.getReceipt 106, Event.getReceipt 107, Event.getReceipt 108]) :=
  (claim_C5_fatal_revert_aborts cfgW envFatalW 3 10 4 lW 3 5 9 13 7 []
    [Event.sendTxCall 0 20 7, Event.sendTxCall 1 21 8, Event.sendTxCall 2 10 9]
    [Event.getReceipt 106, Event.getReceipt 107, Event.getReceipt 108]
    [{ success := false, txHash := some 106, tx := 20, name := "broadcast data 1/2" },
     { success := false, txHash := some 107, tx := 21, name := "broadcast data 2/2" },
     { success := false, txHash := some 108, tx := 10, name := "rollup proof" }]
    [{ success := true, txHash := some 106, tx := 20, name := "broadcast data 1/2" },
     { success := true, txHash := some 107, tx := 21, name := "broadcast data 2/2" },
     { success := false, txHash := some 108, tx := 10, name := "rollup proof" }]
    { status := false,
      revertError := some { name := "INCORRECT_STATE_HASH", params := [] } }
    (by decide) (by decide) (by decide) rfl (by decide) (by decide) rfl
    (by decide)).1

/-- C6: if for some not-yet-confirmed entry the receipt wrapper yields no
receipt — the poll returned the timeout marker, or the wrapper abandoned
its error-retry loop because the interrupt flag was observed — the receipt
loop stops right there (conclusion 2; conclusion 3 is the abandon exit) and
the whole publish returns ABORTED (conclusion 1). -/
theorem claim_C6_no_receipt_aborts (cfg : Config) (env : Env)
    (rid gas : Nat) (f : Nat) (l : List TxStatus)
    (st st1 st2 st3 n0 : Nat) (trG trS trR : List Event)
    (l2 l3 : List TxStatus)
    (hI : interrupted env st = false)
    (hG : awaitGasPriceBelowThresholdAndSufficientBalance cfg env gas
      (f + 1) st = (.ok (), st1, trG))
    (hI1 : interrupted env st1 = false)
    (hT : env.txCountR st1 = .ok n0)
    (hS : sendTxs env (f + 1) 0 l n0 (st1 + 1) = (some (), l2, st2, trS))
    (hAny : l2.any (fun s => s.txHash.isNone) = false)
    (hC : env.confirmSentR st2 = .ok ())
    (hR : checkReceipts env (f + 1) l2 (st2 + 1) = (.noReceipt, l3, st3, trR)) :
    mainLoop cfg env rid gas (f + 1) l st = (.ok false, l3, st3,
      trG ++ trS ++ Event.confirmSent rid
        (((l2.getLast?).bind (fun s => s.txHash)).getD 0) :: trR) ∧
    (∀ (fuelx : Nat) (ts : TxStatus) (rest : List TxStatus)
      (stx stWx : Nat) (trWx : List Event),
      ts.success = false →
      getTransactionReceipt env fuelx (ts.txHash.getD 0) stx =
        (some none, stWx, trWx) →
      checkReceipts env fuelx (ts :: rest) stx =
        (.noReceipt, ts :: rest, stWx, trWx)) ∧
    (∀ (fx h stx : Nat), interrupted env stx = true →
      getTransactionReceipt env (fx + 1) h stx = (some none, stx, [])) := by
  refine ⟨mainLoop_iter_noReceipt cfg env rid gas f l st st1 st2 st3 n0 trG
      trS trR l2 l3 hI hG hI1 hT hS hAny hC hR, ?_, ?_⟩
  · intro fuelx ts rest stx stWx trWx hsucc hfetch
    simp [checkReceipts, hsucc, hfetch]
  · intro fx h stx hint
    exact getTransactionReceipt_interrupted env fx h stx hint

/-- C6 witness: with the timeout environment (no receipt for the
rollup-proof transaction within the per-tx budget), the iteration returns
ABORTED. -/
theorem claim_C6_witness :
    mainLoop cfgW envTimeoutW 3 10 5 lW 3 = (.ok false,
      [{ success := true, txHash := some 106, tx := 20, name := "broadcast data 1/2" },
       { success := true, txHash := some 107, tx := 21, name := "broadcast data 2/2" },
       { success := false, txHash := some 108, tx := 10, name := "rollup proof" }],
      13,
      [] ++ [Event.sendTxCall 0 20 7, Event.sendTxCall 1 21 8,
        Event.sendTxCall 2 10 9] ++ Event.confirmSent 3
        (((([{ success := false, txHash := some 106, tx := 20, name := "broadcast data 1/2" },
             { success := false, txHash := some 107, tx := 21, name := "broadcast data 2/2" },
             { success := false, txHash := some 108, tx := 10, name := "rollup proof" }] :
             List TxStatus).getLast?).bind (fun s => s.txHash)).getD 0) ::
        [Event.getReceipt 106, Event.getReceipt 107, Event.getReceipt 108]) :=
  (claim_C6_no_receipt_aborts cfgW envTimeoutW 3 10 4 lW 3 5 9 13 7 []
    [Event.sendTxCall 0 20 7, Event.sendTxCall 1 21 8, Event.sendTxCall 2 10 9]
    [Event.getReceipt 106, Event.getReceipt 107, Event.getReceipt 108]
    [{ success := false, txHash := some 106, tx := 20, name := "broadcast data 1/2" },
     { success := false, txHash := some 107, tx := 21, name := "broadcast data 2/2" },
     { success := false, txHash := some 108, tx := 10, name := "rollup proof" }]
    [{ success := true, txHash := some 106, tx := 20, name := "broadcast data 1/2" },
     { success := true, txHash := some 107, tx := 21, name := "broadcast data 2/2" },
     { success := false, txHash := some 108, tx := 10, name := "rollup proof" }]
    (by decide) (by decide) (by decide) rfl (by decide) (by decide) rfl
    (by decide)).1

/-- C7 counterexample: the claim "publishRollup never raises an exception to
its caller, even when getBlockByNumber (etc.) throw" is false: with a chain
client whose `getBlockByNumber` rejects, the call's outcome is neither
PUBLISHED nor ABORTED — the exception propagates (the `Res.exn` outcome). -/
theorem claim_C7_counterexample :
    ¬ ∃ b : Bool, (publishRollup cfgW envExnW 1 rollupW 10 0).1 = Res.ok b := by
  decide

/-- C7 (amended): errors thrown by `blockchain.sendTx` and by the receipt
fetch are caught and retried internally and never propagate; when every
*other* (uncaught) collaborator call answers normally, `publishRollup`
indeed never raises — its outcome is PUBLISHED, ABORTED or still-running.
Exceptions from `getAccounts`, `getBlockByNumber`, `getBalance`,
`getTransactionCount`, `setCallData`, `confirmSent` or batch construction
do propagate to the caller (see the counterexample). -/
theorem claim_C7_no_exn_amended (cfg : Config) (env : Env) (fuel : Nat)
    (rollup : RollupDao) (gas st0 : Nat) (hTot : UncaughtTotal env) :
    (publishRollup cfg env fuel rollup gas st0).1 ≠ Res.exn :=
  publishRollup_no_exn cfg env fuel rollup gas st0 hTot

/-- C7 witness: with every uncaught call answering normally and both caught
calls (`sendTx`, receipt fetch) throwing at every attempt, the publish
still never propagates an exception. -/
theorem claim_C7_witness :
    (publishRollup cfgW envTotW 4 rollupW 10 0).1 ≠ Res.exn :=
  claim_C7_no_exn_amended cfgW envTotW 4 rollupW 10 0
    ⟨⟨1, rfl⟩, fun _ _ => ⟨true, rfl⟩, ⟨(10, [20, 21]), rfl⟩, rfl,
     fun _ => ⟨5, rfl⟩, fun _ => ⟨1000000, rfl⟩, fun _ => ⟨7, rfl⟩,
     fun _ => rfl⟩

/-- C8: one poll of the gas/balance gate proceeds (returning with no sleep)
exactly when `baseFee + maxPriorityFeePerGas ≤ maxFeePerGas` and
`balance ≥ maxFeePerGas × estimatedGas`; equality in either comparison
clears the gate.  When either condition fails, the gate sleeps a
(cancellable, interrupt-checked) 60 s and polls again. -/
theorem claim_C8_gate_conditions (cfg : Config) (env : Env)
    (gas f st bf bal : Nat)
    (hI : interrupted env st = false)
    (hbf : env.blockBaseFeeR st = .ok bf)
    (hbal : env.balanceR (st + 1) = .ok bal) :
    (bf + cfg.maxPriorityFeePerGas ≤ cfg.maxFeePerGas ∧
        cfg.maxFeePerGas * gas ≤ bal →
      awaitGasPriceBelowThresholdAndSufficientBalance cfg env gas (f + 1) st =
        (.ok (), st + 2, [])) ∧
    (¬(bf + cfg.maxPriorityFeePerGas ≤ cfg.maxFeePerGas ∧
        cfg.maxFeePerGas * gas ≤ bal) →
      awaitGasPriceBelowThresholdAndSufficientBalance cfg env gas (f + 1) st =
        ((awaitGasPriceBelowThresholdAndSufficientBalance cfg env gas f
            (st + 3)).1,
         (awaitGasPriceBelowThresholdAndSufficientBalance cfg env gas f
            (st + 3)).2.1,
         Event.sleep 60000 ::
           (awaitGasPriceBelowThresholdAndSufficientBalance cfg env gas f
             (st + 3)).2.2)) := by
  constructor
  · rintro ⟨hFee, hBal⟩
    have hnFee : ¬ cfg.maxFeePerGas < bf + cfg.maxPriorityFeePerGas :=
      not_lt.2 hFee
    have hnBal : ¬ bal < cfg.maxFeePerGas * gas := not_lt.2 hBal
    simp [awaitGasPriceBelowThresholdAndSufficientBalance, hI, hbf, hbal,
      hnFee, hnBal]
  · intro hn
    rcases hX : awaitGasPriceBelowThresholdAndSufficientBalance cfg env gas f
      (st + 3) with ⟨r, st', tr⟩
    by_cases hFee : cfg.maxFeePerGas < bf + cfg.maxPriorityFeePerGas
    · simp [awaitGasPriceBelowThresholdAndSufficientBalance, hI, hbf, hbal,
        hFee, hX]
    · have hBal : bal < cfg.maxFeePerGas * gas := by
        have hA : bf + cfg.maxPriorityFeePerGas ≤ cfg.maxFeePerGas :=
          not_lt.1 hFee
        rcases not_and.mp hn hA |> not_le.mp with h
        exact h
      simp [awaitGasPriceBelowThresholdAndSufficientBalance, hI, hbf, hbal,
        hFee, hBal, hX]

/-- C8 witness: boundary values — base fee exactly `maxFeePerGas −
maxPriorityFeePerGas` (98 = 100 − 2) and balance exactly
`maxFeePerGas × estimatedGas` (1000 = 100 × 10) — clear the gate with no
sleep. -/
theorem claim_C8_witness :
    awaitGasPriceBelowThresholdAndSufficientBalance cfgW envBoundW 10 1 0 =
      (.ok (), 2, []) :=
  (claim_C8_gate_conditions cfgW envBoundW 10 0 0 98 1000 (by decide) rfl
    rfl).1 (by decide)

/-- The signature-collection loop never decreases the step counter. -/
theorem collectSignatures_st_mono (env : Env) :
    ∀ txs st, st ≤ (collectSignatures env txs st).2 := by
  intro txs
  induction txs with
  | nil => intro st; simp [collectSignatures]
  | cons tx rest ih =>
    intro st
    cases hv : env.approvalR st tx.proofData with
    | error e => simp [collectSignatures, hv]
    | ok approved =>
      rcases hrec : collectSignatures env rest (st + 1) with ⟨r, st'⟩
      have := ih (st + 1)
      rw [hrec] at this
      cases r with
      | ok sigs => simp only [collectSignatures, hv, hrec]; omega
      | exn => simp only [collectSignatures, hv, hrec]; omega
      | diverge => simp only [collectSignatures, hv, hrec]; omega

/-- C9 (the code as written): the source class exposes no `clearInterrupt`
member and nothing ever resets the `interrupted` flag, even though the doc
comment on `interrupt` promises "a call to clearInterrupt is required
before you can continue publishing".  Consequently, once `interrupt()` has
been observed (flag raised at or before the start of the call), every
subsequent `publishRollup` — however its collaborators behave — returns
ABORTED at the top of its main loop, performing no send, no sleep and no
receipt fetch. -/
theorem claim_C9_interrupt_never_cleared (cfg : Config) (env : Env)
    (fuel : Nat) (rollup : RollupDao) (gas st0 t stc : Nat)
    (proofTx : Nat) (offs : List Nat) (a : Nat)
    (hint : env.interruptAt = some t) (ht : t ≤ st0)
    (hcd : createTxData env rollup st0 = (.ok (proofTx, offs), stc))
    (hsc : env.setCallDataR = .ok ())
    (hacc : env.accountsR = .ok a) :
    publishRollup cfg env (fuel + 1) rollup gas st0 =
      (.ok false, txStatusesInit offs proofTx, stc + 2, []) := by
  have hmono : st0 ≤ stc := by
    have h1 := collectSignatures_st_mono env
      (rollup.txs.filter (fun tx => tx.signature.isSome)) st0
    rcases hcs : collectSignatures env
      (rollup.txs.filter (fun tx => tx.signature.isSome)) st0 with ⟨r, st'⟩
    rw [hcs] at h1
    cases r with
    | ok sigs =>
      cases hcr : env.createTxsR with
      | error e => simp [createTxData, hcs, hcr] at hcd
      | ok txs =>
        simp only [createTxData, hcs, hcr, Prod.mk.injEq] at hcd
        omega
    | exn => simp [createTxData, hcs] at hcd
    | diverge => simp [createTxData, hcs] at hcd
  have hI : interrupted env (stc + 2) = true := by
    simp only [interrupted, hint, decide_eq_true_eq]
    omega
  simp [publishRollup, hcd, hsc, hacc, mainLoop, hI]

/-- C9 witness: with the flag raised before the call, the publish returns
ABORTED immediately with an empty observable trace. -/
theorem claim_C9_witness :
    publishRollup cfgW envIntW 5 rollupW 10 0 =
      (.ok false, txStatusesInit [20, 21] 10, 3, []) :=
  claim_C9_interrupt_never_cleared cfgW envIntW 4 rollupW 10 0 0 1 10
    [20, 21] 1 rfl (by decide) (by decide) rfl rfl

/-- Taking the trace up to one event past two prefixes isolates that
event. -/
theorem take_after_send {α : Type} (A B : List α) (c : α) (X : List α) :
    (A ++ (B ++ c :: X)).take (A.length + B.length + 1) = A ++ (B ++ [c]) := by
  have h1 : A.length + B.length + 1 = A.length + (B.length + 1) := by omega
  rw [h1, List.take_append, List.take_append]
  simp

/-- C10: in every main-loop iteration whose send phase completes with a
hash on every entry, `rollupDb.confirmSent` is invoked — immediately after
the send phase — with the `txHash` of the last (rollup-proof) status entry.
Quantified over arbitrary iteration entry states, this covers later retry
iterations as well, so `confirmSent` runs again with the new hash whenever
the rollup-proof transaction was re-sent. -/
theorem claim_C10_confirmSent_last_hash (cfg : Config) (env : Env)
    (rid gas : Nat) (f : Nat) (l : List TxStatus)
    (st st1 st2 n0 hh : Nat) (trG trS : List Event) (l2 : List TxStatus)
    (te : TxStatus)
    (hI : interrupted env st = false)
    (hG : awaitGasPriceBelowThresholdAndSufficientBalance cfg env gas
      (f + 1) st = (.ok (), st1, trG))
    (hI1 : interrupted env st1 = false)
    (hT : env.txCountR st1 = .ok n0)
    (hS : sendTxs env (f + 1) 0 l n0 (st1 + 1) = (some (), l2, st2, trS))
    (hAny : l2.any (fun s => s.txHash.isNone) = false)
    (hlast : l2.getLast? = some te) (hth : te.txHash = some hh)
    (hC : env.confirmSentR st2 = .ok ()) :
    (mainLoop cfg env rid gas (f + 1) l st).2.2.2.take
        (trG.length + trS.length + 1) =
      trG ++ (trS ++ [Event.confirmSent rid hh]) := by
  rcases hR : checkReceipts env (f + 1) l2 (st2 + 1) with ⟨ro, l3, st3, trR⟩
  cases ro with
  | allOk =>
    simp only [mainLoop, hI, hG, hI1, hT, hS, hAny, hC, hR, hlast, hth,
      Bool.false_eq_true, if_false, Option.some_bind, Option.getD_some,
      List.append_assoc, List.singleton_append]
    exact take_after_send trG trS (Event.confirmSent rid hh) trR
  | noReceipt =>
    simp only [mainLoop, hI, hG, hI1, hT, hS, hAny, hC, hR, hlast, hth,
      Bool.false_eq_true, if_false, Option.some_bind, Option.getD_some,
      List.append_assoc, List.singleton_append]
    exact take_after_send trG trS (Event.confirmSent rid hh) trR
  | fatal rc =>
    simp only [mainLoop, hI, hG, hI1, hT, hS, hAny, hC, hR, hlast, hth,
      Bool.false_eq_true, if_false, Option.some_bind, Option.getD_some,
      List.append_assoc, List.singleton_append]
    exact take_after_send trG trS (Event.confirmSent rid hh) trR
  | diverge =>
    simp only [mainLoop, hI, hG, hI1, hT, hS, hAny, hC, hR, hlast, hth,
      Bool.false_eq_true, if_false, Option.some_bind, Option.getD_some,
      List.append_assoc, List.singleton_append]
    exact take_after_send trG trS (Event.confirmSent rid hh) trR
  | retryMain =>
    rcases hM : mainLoop cfg env rid gas f l3 st3 with ⟨res, l4, st4, trM⟩
    simp only [mainLoop, hI, hG, hI1, hT, hS, hAny, hC, hR, hM, hlast, hth,
      Bool.false_eq_true, if_false, Option.some_bind, Option.getD_some,
      List.append_assoc, List.singleton_append]
    exact take_after_send trG trS (Event.confirmSent rid hh) (trR ++ trM)

/-- C10 witness: the retry iteration re-sends only the rollup-proof
transaction and calls `confirmSent` again with its fresh hash 117. -/
theorem claim_C10_witness :
    (mainLoop cfgW envRetryW 3 10 4 l3W 14).2.2.2.take 2 =
      [] ++ ([Event.sendTxCall 2 10 7] ++ [Event.confirmSent 3 117]) :=
  claim_C10_confirmSent_last_hash cfgW envRetryW 3 10 3 l3W 14 16 18 7 117
    [] [Event.sendTxCall 2 10 7]
    [{ success := true, txHash := some 106, tx := 20, name := "broadcast data 1/2" },
     { success := true, txHash := some 107, tx := 21, name := "broadcast data 2/2" },
     { success := false, txHash := some 117, tx := 10, name := "rollup proof" }]
    { success := false, txHash := some 117, tx := 10, name := "rollup proof" }
    (by decide) (by decide) (by decide) rfl (by decide) (by decide)
    (by decide) rfl rfl
